import Mathlib

/-!
# Verification of the Driftville agent core

Shallow embedding of the per-tick cognition cycle and supporting runtime of
the Driftville_Agent repository, together with proofs of the specification's
testable properties.

Modelling conventions, used throughout:

* Python dict-shaped stage results are embedded as structures whose fields are
  `Option`-typed: `none` models an absent key.  JSON `null` stored under a key
  is conflated with an absent key (Python's `dict.get` returns `None` for
  both); the claims settled here do not depend on the distinction, and each
  place where it could matter is noted.
* Python floats are modelled as exact rationals (`ℚ`); the numeric literals
  0.4, 0.3, 0.55, 1e-8, 60.1 appear as the corresponding rationals.
* Square roots (`** 0.5`, `np.linalg.norm`, `math.sqrt`) have no exact
  rational counterpart, so functions using them take an explicit `sqrtQ`
  parameter modelling the numeric square-root primitive; theorems assume its
  defining equations only at the values actually used.
* External collaborators (the JSON parser's output on raw model text, the
  embedding service, datetime parsing/formatting, the generation calls) are
  parameters of the functions that invoke them, as the spec treats them as
  opaque collaborators.
* Timestamps handled only through `strptime`/`strftime` round trips are
  modelled as natural numbers (minutes), with an abstract formatter
  `fmt : ℕ → String` standing for `strftime`.
-/

namespace Driftville

set_option maxRecDepth 8192

/-! ## Data model (spec §3, `app/src/simulate.py`)

A `ScheduleSlot` as produced by `load_agent`: every key is populated there
(defaults `"home"`, `"idle"`, `""`), so the fields are total.  `start` is the
`strptime` parse of the slot's `datetime_start` string, in minutes; `none`
models a string `strptime` fails on (such slots are skipped by `slot_at`). -/
structure ScheduleSlot where
  start : Option ℕ := none
  duration_min : ℕ := 0
  location : String := "home"
  action : String := "idle"
  environment_description : String := ""
  notes : String := ""
deriving Repr, DecidableEq

/-- A generic ORPDA stage block (observation / reflection / plan):
the keys touched by `run_simulation`, `Option`-typed (absent key = `none`). -/
structure StageBlock where
  datetime_start : Option String := none
  duration_min : Option ℕ := none
  location : Option String := none
  action : Option String := none
  topic : Option String := none
  state_summary : Option String := none
  next_datetime : Option String := none
deriving Repr, DecidableEq

/-- The drift-decision block (spec §3 `DriftDecision`). -/
structure DriftDecision where
  should_drift : Option Bool := none
  drift_type : Option String := none
  drift_topic : Option String := none
  drift_intensity : Option ℚ := none
  drift_action : Option String := none
  justification : Option String := none
  potential_recovery : Option String := none
  datetime_start : Option String := none
  duration_min : Option ℕ := none
  next_datetime : Option String := none
deriving Repr, DecidableEq

/-- The action-result block. -/
structure ActionResult where
  datetime_start : Option String := none
  duration_min : Option ℕ := none
  location : Option String := none
  action : Option String := none
  topic : Option String := none
  state_summary : Option String := none
  drift_type : Option String := none
  drift_topic : Option String := none
  next_datetime : Option String := none
deriving Repr, DecidableEq

/-- The merged dict returned by `run_orpda_cycle` as consumed by
`run_simulation` (each of the five keys may be absent;
`orpda_out.get(key, {}) or {}` supplies an empty block). -/
structure OrpdaBlocks where
  observation : Option StageBlock := none
  reflection : Option StageBlock := none
  plan : Option StageBlock := none
  drift_decision : Option DriftDecision := none
  action_result : Option ActionResult := none
deriving Repr, DecidableEq

/-- The five blocks of one tick after normalization. -/
structure TickBlocks where
  obs : StageBlock
  ref : StageBlock
  plan : StageBlock
  drift : DriftDecision
  action_result : ActionResult
deriving Repr, DecidableEq

/-! ## ScheduleOracle (`simulate.py` `slot_at`, lines 351-362) -/

/-- `slot_at(schedule, dt)`: first slot (list order) with
`start ≤ dt < start + duration`; slots whose `datetime_start` does not parse
are skipped.  Returns `(slot, start, end)` or `None`. -/
def slot_at (schedule : List ScheduleSlot) (dt : ℕ) : Option (ScheduleSlot × ℕ × ℕ) :=
  match schedule with
  | [] => none
  | slot :: rest =>
    match slot.start with
    | none => slot_at rest dt
    | some s =>
      if s ≤ dt ∧ dt < s + slot.duration_min then some (slot, s, s + slot.duration_min)
      else slot_at rest dt

theorem slot_at_sound {schedule : List ScheduleSlot} {dt : ℕ}
    {slot : ScheduleSlot} {s e : ℕ} (h : slot_at schedule dt = some (slot, s, e)) :
    slot.start = some s ∧ e = s + slot.duration_min ∧ s ≤ dt ∧ dt < e := by
  induction schedule with
  | nil => simp [slot_at] at h
  | cons hd tl ih =>
    rw [slot_at] at h
    rcases hst : hd.start with _ | s0
    · rw [hst] at h; exact ih h
    · rw [hst] at h
      simp only at h
      by_cases hc : s0 ≤ dt ∧ dt < s0 + hd.duration_min
      · rw [if_pos hc] at h
        have h1 : hd = slot := congrArg (fun p => p.1) (Option.some.inj h)
        have h2 : s0 = s := congrArg (fun p => p.2.1) (Option.some.inj h)
        have h3 : s0 + hd.duration_min = e := congrArg (fun p => p.2.2) (Option.some.inj h)
        subst h1; subst h2
        exact ⟨hst, h3.symm, hc.1, h3 ▸ hc.2⟩
      · rw [if_neg hc] at h; exact ih h

/-! ## Per-tick normalization (`simulate.py` `run_simulation`, lines 427-517)

The body of the tick loop between receiving `orpda_out` and logging is a pure
transformation of the five blocks; it is embedded below as a composition of
one function per source block, in source order. -/

/-- Lines 438-440: strip hallucinated `next_datetime` from every block. -/
def popNextStage (b : StageBlock) : StageBlock := { b with next_datetime := none }

/-- Lines 438-440, for the drift decision. -/
def popNextDrift (d : DriftDecision) : DriftDecision := { d with next_datetime := none }

/-- Lines 438-440, for the action result. -/
def popNextAction (a : ActionResult) : ActionResult := { a with next_datetime := none }

/-- Lines 442-454: normalize drift when it is effectively off.
`should_drift = bool(drift.get("should_drift"))`;
`intensity = float(drift.get("drift_intensity") or 0)`;
`drift["drift_action"] = drift.get("drift_action") or "continue"` keeps a
non-empty generator-supplied `drift_action`. -/
def driftOffNormalize (d : DriftDecision) (a : ActionResult) :
    DriftDecision × ActionResult :=
  let intensity : ℚ := d.drift_intensity.getD 0
  if ¬ d.should_drift = some true ∨ intensity ≤ 0 then
    ({ d with
        should_drift := some false
        drift_type := some "none"
        drift_topic := some ""
        drift_intensity := some 0
        drift_action := some (if d.drift_action.getD "" = "" then "continue"
                              else d.drift_action.getD "")
        potential_recovery := some ""
        justification := some "" },
     { a with drift_type := some "none", drift_topic := none })
  else (d, a)

/-- Lines 456-460: authoritative timestamps on `obs`, `plan`, `drift`,
`action_result` (the source tuple omits `ref`). -/
def stampStage (simTs : String) (b : StageBlock) : StageBlock :=
  { b with datetime_start := some simTs, duration_min := some 15 }

/-- Lines 456-460 for the drift decision. -/
def stampDrift (simTs : String) (d : DriftDecision) : DriftDecision :=
  { d with datetime_start := some simTs, duration_min := some 15 }

/-- Lines 456-460 for the action result. -/
def stampAction (simTs : String) (a : ActionResult) : ActionResult :=
  { a with datetime_start := some simTs, duration_min := some 15 }

/-- Lines 462-465: if `"drift_type" in drift`, copy `drift_type`/`drift_topic`
from the drift decision into the action result. -/
def driftPropagate (d : DriftDecision) (a : ActionResult) : ActionResult :=
  if d.drift_type.isSome then
    { a with drift_type := d.drift_type, drift_topic := d.drift_topic }
  else a

/-- `slot.get("notes") or slot.get("action")` (line 470). -/
def slotTopic (slot : ScheduleSlot) : String :=
  if slot.notes ≠ "" then slot.notes else slot.action

/-- Lines 468-475: first-tick alignment of one block to the current slot
(`block["topic"] = slot_topic or block.get("topic")`). -/
def alignStageToSlot (slot : ScheduleSlot) (b : StageBlock) : StageBlock :=
  { b with
      location := some slot.location
      action := some slot.action
      topic := if slotTopic slot ≠ "" then some (slotTopic slot) else b.topic }

/-- Lines 468-475 for the action result. -/
def alignActionToSlot (slot : ScheduleSlot) (a : ActionResult) : ActionResult :=
  { a with
      location := some slot.location
      action := some slot.action
      topic := if slotTopic slot ≠ "" then some (slotTopic slot) else a.topic }

/-- Lines 467-475: on the very first tick (no prior `action_result`), and only
when a slot is currently active, align observation/plan/action to the slot. -/
def firstTickAlign (last : Option ActionResult) (cur : Option (ScheduleSlot × ℕ × ℕ))
    (obs plan : StageBlock) (a : ActionResult) :
    StageBlock × StageBlock × ActionResult :=
  match last, cur with
  | none, some (slot, _, _) =>
    (alignStageToSlot slot obs, alignStageToSlot slot plan, alignActionToSlot slot a)
  | _, _ => (obs, plan, a)

/-- The non-behavioral drift types of lines 480 and 500. -/
def nonBehavioral (driftType : String) : Prop :=
  driftType = "none" ∨ driftType = "internal" ∨ driftType = "attentional_leak"

instance (driftType : String) : Decidable (nonBehavioral driftType) := by
  unfold nonBehavioral; infer_instance

/-- Lines 477-497: align `action_result` (and copy into `plan`) to the active
slot while not behaviorally drifting, staying in-slot until its end.
`action_result["topic"] = slot.get("notes") or slot.get("action") or
action_result.get("topic")`. -/
def scheduleAlign (cur : Option (ScheduleSlot × ℕ × ℕ)) (t : ℕ)
    (driftType : String) (plan : StageBlock) (a : ActionResult) :
    StageBlock × ActionResult :=
  match cur with
  | some (slot, _, slotEnd) =>
    if nonBehavioral driftType ∧ t < slotEnd then
      let newTopic : Option String :=
        if slot.notes ≠ "" then some slot.notes
        else if slot.action ≠ "" then some slot.action
        else a.topic
      ({ plan with location := some slot.location, action := some slot.action,
                   topic := newTopic },
       { a with location := some slot.location, action := some slot.action,
                topic := newTopic })
    else (plan, a)
  | none => (plan, a)

/-- Lines 499-506: ensure non-behavioral drift keeps the planned
location/action; `setdefault` only fills an absent `topic`. -/
def nonBehavioralKeep (driftType : String) (plan : StageBlock) (a : ActionResult) :
    ActionResult :=
  if nonBehavioral driftType then
    let a1 := if plan.location.getD "" ≠ "" then { a with location := plan.location } else a
    let a2 := if plan.action.getD "" ≠ "" then { a1 with action := plan.action } else a1
    if plan.topic.getD "" ≠ "" ∧ a2.topic = none then { a2 with topic := plan.topic } else a2
  else a

/-- Lines 507-512: when `drift_type == "none"`, overwrite the action
state summary from plan/observation. -/
def stateSummaryFix (d : DriftDecision) (obs plan : StageBlock) (a : ActionResult) :
    ActionResult :=
  if d.drift_type = some "none" then
    let summary :=
      if plan.state_summary.getD "" ≠ "" then plan.state_summary.getD ""
      else if obs.state_summary.getD "" ≠ "" then obs.state_summary.getD ""
      else a.state_summary.getD ""
    { a with state_summary := some summary }
  else a

/-- The whole per-tick normalization of `run_simulation` (lines 427-517):
`fmt` models `strftime` on simulated minutes, `t` is the tick's simulated
time in minutes (`sim_ts = fmt t`), `last` is the previous tick's
`action_result` (`None` on the first tick).  Lines 427-429 (unnesting an
`"action"` key) are omitted: `run_orpda_cycle` only ever emits the five
ORPDA keys, so that branch is dead on this composition path. -/
def normalizeTick (fmt : ℕ → String) (schedule : List ScheduleSlot) (t : ℕ)
    (last : Option ActionResult) (orpda : OrpdaBlocks) : TickBlocks :=
  let simTs := fmt t
  let cur := slot_at schedule t
  -- orpda_out.get(key, {}) or {}   (lines 431-435)
  let obs := popNextStage (orpda.observation.getD {})
  let ref := popNextStage (orpda.reflection.getD {})
  let plan := popNextStage (orpda.plan.getD {})
  let drift := popNextDrift (orpda.drift_decision.getD {})
  let ar := popNextAction (orpda.action_result.getD {})
  -- lines 442-454
  let p1 := driftOffNormalize drift ar
  let drift := p1.1
  let ar := p1.2
  -- lines 456-460 (note: ref is NOT in the tuple at line 457)
  let obs := stampStage simTs obs
  let plan := stampStage simTs plan
  let drift := stampDrift simTs drift
  let ar := stampAction simTs ar
  -- lines 462-465
  let ar := driftPropagate drift ar
  -- lines 468-475 (first tick only, and only when a slot is active)
  let p2 := firstTickAlign last cur obs plan ar
  let obs := p2.1
  let plan := p2.2.1
  let ar := p2.2.2
  -- line 478
  let driftType := drift.drift_type.getD "none"
  -- lines 477-497
  let p3 := scheduleAlign cur t driftType plan ar
  let plan := p3.1
  let ar := p3.2
  -- lines 499-506
  let ar := nonBehavioralKeep driftType plan ar
  -- lines 507-512
  let ar := stateSummaryFix drift obs plan ar
  -- lines 515-517
  let ar := { ar with next_datetime := some (fmt (t + 15)) }
  { obs := obs, ref := ref, plan := plan, drift := drift, action_result := ar }

/-! ### Preservation lemmas for the normalization stages -/

@[simp] theorem popNextDrift_should_drift (d : DriftDecision) :
    (popNextDrift d).should_drift = d.should_drift := rfl

@[simp] theorem popNextDrift_drift_intensity (d : DriftDecision) :
    (popNextDrift d).drift_intensity = d.drift_intensity := rfl

@[simp] theorem popNextDrift_drift_action (d : DriftDecision) :
    (popNextDrift d).drift_action = d.drift_action := rfl

theorem driftOffNormalize_off {d : DriftDecision} {a : ActionResult}
    (h : ¬ d.should_drift = some true ∨ d.drift_intensity.getD 0 ≤ 0) :
    driftOffNormalize d a =
      ({ d with
          should_drift := some false
          drift_type := some "none"
          drift_topic := some ""
          drift_intensity := some 0
          drift_action := some (if d.drift_action.getD "" = "" then "continue"
                                else d.drift_action.getD "")
          potential_recovery := some ""
          justification := some "" },
       { a with drift_type := some "none", drift_topic := none }) := by
  simp only [driftOffNormalize]
  rw [if_pos h]

@[simp] theorem driftPropagate_datetime_start (d : DriftDecision) (a : ActionResult) :
    (driftPropagate d a).datetime_start = a.datetime_start := by
  unfold driftPropagate; split <;> rfl

@[simp] theorem driftPropagate_duration_min (d : DriftDecision) (a : ActionResult) :
    (driftPropagate d a).duration_min = a.duration_min := by
  unfold driftPropagate; split <;> rfl

@[simp] theorem firstTickAlign_obs_datetime (l : Option ActionResult)
    (c : Option (ScheduleSlot × ℕ × ℕ)) (o p : StageBlock) (a : ActionResult) :
    (firstTickAlign l c o p a).1.datetime_start = o.datetime_start := by
  unfold firstTickAlign
  rcases l with _ | _ <;> rcases c with _ | ⟨slot, s, e⟩ <;> rfl

@[simp] theorem firstTickAlign_obs_duration (l : Option ActionResult)
    (c : Option (ScheduleSlot × ℕ × ℕ)) (o p : StageBlock) (a : ActionResult) :
    (firstTickAlign l c o p a).1.duration_min = o.duration_min := by
  unfold firstTickAlign
  rcases l with _ | _ <;> rcases c with _ | ⟨slot, s, e⟩ <;> rfl

@[simp] theorem firstTickAlign_plan_datetime (l : Option ActionResult)
    (c : Option (ScheduleSlot × ℕ × ℕ)) (o p : StageBlock) (a : ActionResult) :
    (firstTickAlign l c o p a).2.1.datetime_start = p.datetime_start := by
  unfold firstTickAlign
  rcases l with _ | _ <;> rcases c with _ | ⟨slot, s, e⟩ <;> rfl

@[simp] theorem firstTickAlign_plan_duration (l : Option ActionResult)
    (c : Option (ScheduleSlot × ℕ × ℕ)) (o p : StageBlock) (a : ActionResult) :
    (firstTickAlign l c o p a).2.1.duration_min = p.duration_min := by
  unfold firstTickAlign
  rcases l with _ | _ <;> rcases c with _ | ⟨slot, s, e⟩ <;> rfl

@[simp] theorem firstTickAlign_ar_datetime (l : Option ActionResult)
    (c : Option (ScheduleSlot × ℕ × ℕ)) (o p : StageBlock) (a : ActionResult) :
    (firstTickAlign l c o p a).2.2.datetime_start = a.datetime_start := by
  unfold firstTickAlign
  rcases l with _ | _ <;> rcases c with _ | ⟨slot, s, e⟩ <;> rfl

@[simp] theorem firstTickAlign_ar_duration (l : Option ActionResult)
    (c : Option (ScheduleSlot × ℕ × ℕ)) (o p : StageBlock) (a : ActionResult) :
    (firstTickAlign l c o p a).2.2.duration_min = a.duration_min := by
  unfold firstTickAlign
  rcases l with _ | _ <;> rcases c with _ | ⟨slot, s, e⟩ <;> rfl

@[simp] theorem firstTickAlign_ar_drift_topic (l : Option ActionResult)
    (c : Option (ScheduleSlot × ℕ × ℕ)) (o p : StageBlock) (a : ActionResult) :
    (firstTickAlign l c o p a).2.2.drift_topic = a.drift_topic := by
  unfold firstTickAlign
  rcases l with _ | _ <;> rcases c with _ | ⟨slot, s, e⟩ <;> rfl

@[simp] theorem firstTickAlign_ar_drift_type (l : Option ActionResult)
    (c : Option (ScheduleSlot × ℕ × ℕ)) (o p : StageBlock) (a : ActionResult) :
    (firstTickAlign l c o p a).2.2.drift_type = a.drift_type := by
  unfold firstTickAlign
  rcases l with _ | _ <;> rcases c with _ | ⟨slot, s, e⟩ <;> rfl

@[simp] theorem scheduleAlign_plan_datetime (c : Option (ScheduleSlot × ℕ × ℕ))
    (t : ℕ) (dt : String) (p : StageBlock) (a : ActionResult) :
    (scheduleAlign c t dt p a).1.datetime_start = p.datetime_start := by
  unfold scheduleAlign
  split <;> (try split) <;> rfl

@[simp] theorem scheduleAlign_plan_duration (c : Option (ScheduleSlot × ℕ × ℕ))
    (t : ℕ) (dt : String) (p : StageBlock) (a : ActionResult) :
    (scheduleAlign c t dt p a).1.duration_min = p.duration_min := by
  unfold scheduleAlign
  split <;> (try split) <;> rfl

@[simp] theorem scheduleAlign_ar_datetime (c : Option (ScheduleSlot × ℕ × ℕ))
    (t : ℕ) (dt : String) (p : StageBlock) (a : ActionResult) :
    (scheduleAlign c t dt p a).2.datetime_start = a.datetime_start := by
  unfold scheduleAlign
  split <;> (try split) <;> rfl

@[simp] theorem scheduleAlign_ar_duration (c : Option (ScheduleSlot × ℕ × ℕ))
    (t : ℕ) (dt : String) (p : StageBlock) (a : ActionResult) :
    (scheduleAlign c t dt p a).2.duration_min = a.duration_min := by
  unfold scheduleAlign
  split <;> (try split) <;> rfl

@[simp] theorem scheduleAlign_ar_drift_topic (c : Option (ScheduleSlot × ℕ × ℕ))
    (t : ℕ) (dt : String) (p : StageBlock) (a : ActionResult) :
    (scheduleAlign c t dt p a).2.drift_topic = a.drift_topic := by
  unfold scheduleAlign
  split <;> (try split) <;> rfl

@[simp] theorem scheduleAlign_ar_drift_type (c : Option (ScheduleSlot × ℕ × ℕ))
    (t : ℕ) (dt : String) (p : StageBlock) (a : ActionResult) :
    (scheduleAlign c t dt p a).2.drift_type = a.drift_type := by
  unfold scheduleAlign
  split <;> (try split) <;> rfl

@[simp] theorem nonBehavioralKeep_datetime (dt : String) (p : StageBlock) (a : ActionResult) :
    (nonBehavioralKeep dt p a).datetime_start = a.datetime_start := by
  simp only [nonBehavioralKeep]
  split <;> (try split) <;> (try split) <;> (try split) <;> rfl

@[simp] theorem nonBehavioralKeep_duration (dt : String) (p : StageBlock) (a : ActionResult) :
    (nonBehavioralKeep dt p a).duration_min = a.duration_min := by
  simp only [nonBehavioralKeep]
  split <;> (try split) <;> (try split) <;> (try split) <;> rfl

@[simp] theorem nonBehavioralKeep_drift_topic (dt : String) (p : StageBlock) (a : ActionResult) :
    (nonBehavioralKeep dt p a).drift_topic = a.drift_topic := by
  simp only [nonBehavioralKeep]
  split <;> (try split) <;> (try split) <;> (try split) <;> rfl

@[simp] theorem nonBehavioralKeep_drift_type (dt : String) (p : StageBlock) (a : ActionResult) :
    (nonBehavioralKeep dt p a).drift_type = a.drift_type := by
  simp only [nonBehavioralKeep]
  split <;> (try split) <;> (try split) <;> (try split) <;> rfl

@[simp] theorem stateSummaryFix_datetime (d : DriftDecision) (o p : StageBlock) (a : ActionResult) :
    (stateSummaryFix d o p a).datetime_start = a.datetime_start := by
  unfold stateSummaryFix; split <;> rfl

@[simp] theorem stateSummaryFix_duration (d : DriftDecision) (o p : StageBlock) (a : ActionResult) :
    (stateSummaryFix d o p a).duration_min = a.duration_min := by
  unfold stateSummaryFix; split <;> rfl

@[simp] theorem stateSummaryFix_drift_topic (d : DriftDecision) (o p : StageBlock) (a : ActionResult) :
    (stateSummaryFix d o p a).drift_topic = a.drift_topic := by
  unfold stateSummaryFix; split <;> rfl

@[simp] theorem stateSummaryFix_drift_type (d : DriftDecision) (o p : StageBlock) (a : ActionResult) :
    (stateSummaryFix d o p a).drift_type = a.drift_type := by
  unfold stateSummaryFix; split <;> rfl

@[simp] theorem stateSummaryFix_location (d : DriftDecision) (o p : StageBlock) (a : ActionResult) :
    (stateSummaryFix d o p a).location = a.location := by
  unfold stateSummaryFix; split <;> rfl

@[simp] theorem stateSummaryFix_action (d : DriftDecision) (o p : StageBlock) (a : ActionResult) :
    (stateSummaryFix d o p a).action = a.action := by
  unfold stateSummaryFix; split <;> rfl

@[simp] theorem stateSummaryFix_topic (d : DriftDecision) (o p : StageBlock) (a : ActionResult) :
    (stateSummaryFix d o p a).topic = a.topic := by
  unfold stateSummaryFix; split <;> rfl

/-- When the plan block already agrees with the action result on
location/action/topic, lines 499-506 change nothing. -/
theorem nonBehavioralKeep_of_eq {dt : String} {p : StageBlock} {a : ActionResult}
    (hl : p.location = a.location) (ha : p.action = a.action) (htp : p.topic = a.topic) :
    nonBehavioralKeep dt p a = a := by
  simp only [nonBehavioralKeep, hl, ha, htp]
  rcases a with ⟨a1, a2, a3, a4, a5, a6, a7, a8, a9⟩
  split
  · split <;> split <;> simp_all
  · rfl

/-- A positive reduction for the schedule-adherence block (lines 477-497). -/
theorem scheduleAlign_pos {slot : ScheduleSlot} {s e t : ℕ} {dt : String}
    {p : StageBlock} {a : ActionResult} (h1 : nonBehavioral dt) (h2 : t < e) :
    scheduleAlign (some (slot, s, e)) t dt p a =
      (let newTopic : Option String :=
        if slot.notes ≠ "" then some slot.notes
        else if slot.action ≠ "" then some slot.action
        else a.topic
       ({ p with location := some slot.location, action := some slot.action,
                 topic := newTopic },
        { a with location := some slot.location, action := some slot.action,
                 topic := newTopic })) := by
  simp only [scheduleAlign]
  rw [if_pos ⟨h1, h2⟩]

/-! ### Claims C1-C3 -/

/-- C1 (amended): for every tick's merged ORPDA result, if the drift
decision's `should_drift` is not true or its `drift_intensity` is ≤ 0, the
normalized drift decision has `drift_type = "none"`, `drift_topic = ""`,
`drift_intensity = 0`, empty `justification` and `potential_recovery`, and the
normalized action result carries no non-empty `drift_topic`; `drift_action`
becomes `"continue"` only when the generation service supplied none (a
non-empty generator-supplied `drift_action` is preserved — the correction to
the claim, per `simulate.py` line 450). -/
theorem c1_drift_off_normalized (fmt : ℕ → String) (schedule : List ScheduleSlot)
    (t : ℕ) (last : Option ActionResult) (orpda : OrpdaBlocks)
    (h : ¬ (orpda.drift_decision.getD {}).should_drift = some true
         ∨ (orpda.drift_decision.getD {}).drift_intensity.getD 0 ≤ 0) :
    (normalizeTick fmt schedule t last orpda).drift.drift_type = some "none" ∧
    (normalizeTick fmt schedule t last orpda).drift.drift_topic = some "" ∧
    (normalizeTick fmt schedule t last orpda).drift.drift_intensity = some 0 ∧
    (normalizeTick fmt schedule t last orpda).drift.justification = some "" ∧
    (normalizeTick fmt schedule t last orpda).drift.potential_recovery = some "" ∧
    (normalizeTick fmt schedule t last orpda).drift.drift_action =
      some (if (orpda.drift_decision.getD {}).drift_action.getD "" = "" then "continue"
            else (orpda.drift_decision.getD {}).drift_action.getD "") ∧
    (normalizeTick fmt schedule t last orpda).action_result.drift_topic.getD "" = "" := by
  have hc : ¬ (popNextDrift (orpda.drift_decision.getD {})).should_drift = some true
      ∨ (popNextDrift (orpda.drift_decision.getD {})).drift_intensity.getD 0 ≤ 0 := h
  simp only [normalizeTick, driftOffNormalize_off hc, stampDrift, stampStage, stampAction,
    driftPropagate, Option.isSome_some, if_true, firstTickAlign_ar_drift_topic,
    scheduleAlign_ar_drift_topic, nonBehavioralKeep_drift_topic, stateSummaryFix_drift_topic,
    popNextDrift_drift_action, ite_true, Option.getD_some]
  simp only [popNextDrift_should_drift, popNextDrift_drift_intensity, and_self, true_and,
    and_true, eq_self_iff_true]

/-- C1 witness: a concrete drift-off tick. -/
theorem c1_witness :
    (normalizeTick (fun _ => "ts") [] 0 none
        { drift_decision := some { should_drift := some false, drift_action := some "wander",
                                   drift_topic := some "shopping" } }).drift.drift_type
      = some "none" ∧
    (normalizeTick (fun _ => "ts") [] 0 none
        { drift_decision := some { should_drift := some false, drift_action := some "wander",
                                   drift_topic := some "shopping" } }).drift.drift_topic
      = some "" ∧
    (normalizeTick (fun _ => "ts") [] 0 none
        { drift_decision := some { should_drift := some false, drift_action := some "wander",
                                   drift_topic := some "shopping" } }).drift.drift_intensity
      = some 0 ∧
    (normalizeTick (fun _ => "ts") [] 0 none
        { drift_decision := some { should_drift := some false, drift_action := some "wander",
                                   drift_topic := some "shopping" } }).drift.justification
      = some "" ∧
    (normalizeTick (fun _ => "ts") [] 0 none
        { drift_decision := some { should_drift := some false, drift_action := some "wander",
                                   drift_topic := some "shopping" } }).drift.potential_recovery
      = some "" ∧
    (normalizeTick (fun _ => "ts") [] 0 none
        { drift_decision := some { should_drift := some false, drift_action := some "wander",
                                   drift_topic := some "shopping" } }).drift.drift_action
      = some (if (some "wander" : Option String).getD "" = "" then "continue"
              else (some "wander" : Option String).getD "") ∧
    (normalizeTick (fun _ => "ts") [] 0 none
        { drift_decision := some { should_drift := some false, drift_action := some "wander",
                                   drift_topic := some "shopping" } }).action_result.drift_topic.getD ""
      = "" :=
  c1_drift_off_normalized (fun _ => "ts") [] 0 none
    { drift_decision := some { should_drift := some false, drift_action := some "wander",
                               drift_topic := some "shopping" } }
    (Or.inl (by decide))

/-- C1 counterexample: with drift off but a generator-supplied
`drift_action = "wander"`, normalization keeps `"wander"` rather than forcing
`"continue"` as the claim states. -/
theorem c1_counterexample :
    (normalizeTick (fun _ => "ts") [] 0 none
        { drift_decision := some { should_drift := some false,
                                   drift_action := some "wander" } }).drift.drift_action
      = some "wander" ∧
    (normalizeTick (fun _ => "ts") [] 0 none
        { drift_decision := some { should_drift := some false,
                                   drift_action := some "wander" } }).drift.drift_action
      ≠ some "continue" := by
  constructor
  · rfl
  · decide

/-- C2 (confirmed): for every tick whose normalized `drift_type` is one of
none/internal/attentional_leak and whose simulated time lies inside the active
schedule slot, the normalized action result takes the slot's location and
action, and the slot's notes-or-action as topic. -/
theorem c2_schedule_adherence (fmt : ℕ → String) (schedule : List ScheduleSlot)
    (t : ℕ) (last : Option ActionResult) (orpda : OrpdaBlocks)
    (slot : ScheduleSlot) (s e : ℕ)
    (hslot : slot_at schedule t = some (slot, s, e))
    (hdt : nonBehavioral
      ((normalizeTick fmt schedule t last orpda).drift.drift_type.getD "none")) :
    (normalizeTick fmt schedule t last orpda).action_result.location = some slot.location ∧
    (normalizeTick fmt schedule t last orpda).action_result.action = some slot.action ∧
    ((slot.notes ≠ "" ∨ slot.action ≠ "") →
      (normalizeTick fmt schedule t last orpda).action_result.topic =
        some (if slot.notes ≠ "" then slot.notes else slot.action)) := by
  have hlt : t < e := (slot_at_sound hslot).2.2.2
  have hdt' : nonBehavioral
      ((stampDrift (fmt t)
        (driftOffNormalize (popNextDrift (orpda.drift_decision.getD {}))
          (popNextAction (orpda.action_result.getD {}))).1).drift_type.getD "none") := hdt
  by_cases hn : slot.notes = "" <;> by_cases ha : slot.action = "" <;>
    simp_all [normalizeTick, hslot, scheduleAlign_pos hdt' hlt, nonBehavioralKeep_of_eq,
      stateSummaryFix_location, stateSummaryFix_action, stateSummaryFix_topic]

/-- C2 witness: a concrete in-slot non-drifting tick. -/
theorem c2_witness :
    (normalizeTick (fun _ => "ts") [⟨some 0, 30, "cafe", "work", "", "opening"⟩] 10
        (some {}) {}).action_result.location = some "cafe" ∧
    (normalizeTick (fun _ => "ts") [⟨some 0, 30, "cafe", "work", "", "opening"⟩] 10
        (some {}) {}).action_result.action = some "work" ∧
    ((("opening" : String) ≠ "" ∨ ("work" : String) ≠ "") →
      (normalizeTick (fun _ => "ts") [⟨some 0, 30, "cafe", "work", "", "opening"⟩] 10
        (some {}) {}).action_result.topic =
        some (if ("opening" : String) ≠ "" then "opening" else "work")) :=
  c2_schedule_adherence (fun _ => "ts") [⟨some 0, 30, "cafe", "work", "", "opening"⟩]
    10 (some {}) {} ⟨some 0, 30, "cafe", "work", "", "opening"⟩ 0 30
    (by decide) (by decide)

/-- C3 (amended): after merging and normalization, the observation, plan,
drift-decision and action-result blocks all carry the tick's canonical
`datetime_start` and the fixed 15-minute `duration_min`, regardless of the
generation service's timestamps.  (The reflection block is the correction: the
tuple at `simulate.py` line 457 omits `ref`, so reflection keeps whatever
timestamps the generation service produced.) -/
theorem c3_authoritative_timestamps (fmt : ℕ → String) (schedule : List ScheduleSlot)
    (t : ℕ) (last : Option ActionResult) (orpda : OrpdaBlocks) :
    (normalizeTick fmt schedule t last orpda).obs.datetime_start = some (fmt t) ∧
    (normalizeTick fmt schedule t last orpda).obs.duration_min = some 15 ∧
    (normalizeTick fmt schedule t last orpda).plan.datetime_start = some (fmt t) ∧
    (normalizeTick fmt schedule t last orpda).plan.duration_min = some 15 ∧
    (normalizeTick fmt schedule t last orpda).drift.datetime_start = some (fmt t) ∧
    (normalizeTick fmt schedule t last orpda).drift.duration_min = some 15 ∧
    (normalizeTick fmt schedule t last orpda).action_result.datetime_start = some (fmt t) ∧
    (normalizeTick fmt schedule t last orpda).action_result.duration_min = some 15 := by
  simp [normalizeTick, stampStage, stampDrift, stampAction]

/-- C3 counterexample: the reflection block's generation-supplied
`datetime_start` survives normalization, contradicting the claim that every
one of the five sub-results is overwritten with the canonical tick time. -/
theorem c3_counterexample :
    (normalizeTick (fun _ => "2023-02-13 14:00") [] 0 none
        { reflection := some { datetime_start := some "bogus", duration_min := some 99 } }).ref.datetime_start
      = some "bogus" ∧
    (normalizeTick (fun _ => "2023-02-13 14:00") [] 0 none
        { reflection := some { datetime_start := some "bogus", duration_min := some 99 } }).ref.datetime_start
      ≠ some "2023-02-13 14:00" := by
  constructor
  · rfl
  · decide

/-! ## RetryPolicy (`conversation_manager.py` `with_backoff`, lines 36-44)

`with_backoff(coro_fn, ...)` awaits the wrapped generation call; the outcome
of each attempt is modelled as a value or an exception class.  The model
records the returned value (`Except.ok`, with `none` standing for Python's
`None` sentinel) or the exception that propagates (`Except.error`), together
with the seconds slept and the number of attempts made. -/

/-- The exception classes distinguished by `with_backoff`'s handlers. -/
inductive ExcClass where
  | resourceExhausted
  | clientError
  | otherError
deriving Repr, DecidableEq

/-- One attempt of the wrapped coroutine: a value or a raised exception. -/
inductive GenOutcome (α : Type) where
  | ok (v : α)
  | exc (e : ExcClass)
deriving Repr, DecidableEq

/-- The classes caught by `except (_ResourceExhaustedError, ClientError)`. -/
def recognizedTransient : ExcClass → Bool
  | .resourceExhausted => true
  | .clientError => true
  | .otherError => false

/-- Result of `with_backoff`: what reaches the caller, seconds slept, and
attempts made. -/
structure BackoffResult (α : Type) where
  outcome : Except ExcClass (Option α)
  sleptSeconds : ℚ
  attempts : ℕ

/-- `with_backoff` (lines 36-44): try the call; only on
`_ResourceExhaustedError`/`ClientError` sleep 60 seconds and retry once,
returning `None` if the retry raises anything; any other first-attempt
exception is uncaught and propagates. -/
def with_backoff {α : Type} (first second : GenOutcome α) : BackoffResult α :=
  match first with
  | .ok v => ⟨.ok (some v), 0, 1⟩
  | .exc e =>
    if recognizedTransient e then
      match second with
      | .ok v => ⟨.ok (some v), 60, 2⟩
      | .exc _ => ⟨.ok none, 60, 2⟩
    else ⟨.error e, 0, 1⟩

/-- C5 (amended): a recognized transient/quota error causes a fixed 60-second
sleep followed by exactly one retry, and in that path the wrapper never
raises (any retry failure yields the `None` sentinel); a successful first
attempt returns its value directly; but a first-attempt exception of any
other class propagates to the caller instead of being converted to the
sentinel — the correction to the claim. -/
theorem c5_with_backoff (α : Type) :
    (∀ (v : α) (second : GenOutcome α),
      with_backoff (.ok v) second = ⟨.ok (some v), 0, 1⟩) ∧
    (∀ (e : ExcClass) (second : GenOutcome α), recognizedTransient e = true →
      (with_backoff (.exc e) second).sleptSeconds = 60 ∧
      (with_backoff (.exc e) second).attempts = 2 ∧
      (with_backoff (.exc e) second).outcome =
        .ok (match second with | .ok v => some v | .exc _ => none)) ∧
    (∀ (e : ExcClass) (second : GenOutcome α), recognizedTransient e = false →
      (with_backoff (.exc e) second).outcome = .error e ∧
      (with_backoff (.exc e) second).sleptSeconds = 0 ∧
      (with_backoff (.exc e) second).attempts = 1) := by
  refine ⟨fun v second => rfl, fun e second he => ?_, fun e second he => ?_⟩
  · cases second <;> simp [with_backoff, he]
  · simp [with_backoff, he]

/-- C5 witness: concrete transient and non-transient first attempts. -/
theorem c5_witness :
    (with_backoff (.exc .resourceExhausted) (GenOutcome.ok (7 : ℕ))).sleptSeconds = 60 ∧
    (with_backoff (.exc .resourceExhausted) (GenOutcome.ok (7 : ℕ))).attempts = 2 ∧
    (with_backoff (.exc .resourceExhausted) (GenOutcome.ok (7 : ℕ))).outcome = .ok (some 7) ∧
    (with_backoff (.exc .otherError) (GenOutcome.ok (7 : ℕ))).outcome = .error .otherError :=
  ⟨((c5_with_backoff ℕ).2.1 .resourceExhausted (GenOutcome.ok 7) rfl).1,
   ((c5_with_backoff ℕ).2.1 .resourceExhausted (GenOutcome.ok 7) rfl).2.1,
   ((c5_with_backoff ℕ).2.1 .resourceExhausted (GenOutcome.ok 7) rfl).2.2,
   ((c5_with_backoff ℕ).2.2 .otherError (GenOutcome.ok 7) rfl).1⟩

/-- C5 counterexample: a first-attempt exception outside the recognized
transient classes propagates out of `with_backoff`, contradicting the claim
that on any other exception the wrapper returns a null sentinel and never
raises. -/
theorem c5_counterexample :
    (with_backoff (.exc .otherError) (GenOutcome.ok (0 : ℕ))).outcome
      = Except.error ExcClass.otherError ∧
    (with_backoff (.exc .otherError) (GenOutcome.ok (0 : ℕ))).outcome
      ≠ Except.ok none := by
  constructor
  · rfl
  · intro h
    exact Except.noConfusion h

/-! ## ConversationEngine dialogue store
(`conversation_manager.py` `ConversationManager.store_turns`, lines 69-117,
and `brain.py` `log_conv_memory`, lines 49-73)

External generation calls (`summarize_dialogue`, the importance scoring via
`with_backoff(run_and_log, ...)`) are parameters.  `importanceScore` models
the net outcome of `with_backoff(run_and_log, ...)`: `some n` means the
importance agent produced integer `n` — in which case `run_and_log` appended
exactly one memory entry via `log_conv_memory` — and `none` means no score
was obtained (no memory entry written). -/

/-- One conversation turn (`{speaker, text}`). -/
structure Turn where
  speaker : Option String := none
  text : Option String := none
deriving Repr, DecidableEq

/-- The dedup key: `(context, tuple((t.get("speaker"), t.get("text")) for t in dialogue))`
(line 74). -/
abbrev DialogueKey := String × List (Option String × Option String)

/-- A `DialogueEvent` as written to `event_logs.jsonl` (lines 104-111). -/
structure DialogueEvent where
  timestamp : String
  context : String
  participants : List String
  dialogue : List Turn
  importance : Option ℤ
deriving Repr, DecidableEq

/-- A `MemoryEntry` as written by `log_conv_memory` to `memory.jsonl`. -/
structure MemoryEntry where
  ts_created : String
  ts_last_accessed : String
  importance : ℤ
  participants : List String
  text : String
deriving Repr, DecidableEq

/-- The mutable state touched by `store_turns`: the `_seen` dedup set, the
two append-only log files, and both agents' in-memory `memory` lists. -/
structure ConvState where
  seen : List DialogueKey := []
  eventLog : List DialogueEvent := []
  memoryLog : List MemoryEntry := []
  agent1Memory : List DialogueEvent := []
  agent2Memory : List DialogueEvent := []
deriving Repr, DecidableEq

/-- The collaborators and clock readings of one `store_turns` invocation. -/
structure ConvEnv where
  agent1Name : String
  agent2Name : String
  eventTs : String
  memTs : String
  summarizeD : String → Option String
  importanceScore : String → Option ℤ

/-- Line 74 key construction. -/
def dialogueKey (context : String) (dialogue : List Turn) : DialogueKey :=
  (context, dialogue.map fun t => (t.speaker, t.text))

/-- Line 83: `" ".join((t.get("text") or "").strip() for t in dialogue).strip()`. -/
def convoTextOf (dialogue : List Turn) : String :=
  (String.intercalate " " (dialogue.map fun t => (t.text.getD "").trim)).trim

/-- Line 84: `summary_text = (await summarize_dialogue(convo_text)) or convo_text`. -/
def summaryTextOf (env : ConvEnv) (convoText : String) : String :=
  match env.summarizeD convoText with
  | none => convoText
  | some s => if s = "" then convoText else s

/-- Lines 85-90: the formatted memory text (empty when `summary_text` is). -/
def memoryTextOf (env : ConvEnv) (summaryText : String) : String :=
  if summaryText = "" then ""
  else env.agent1Name ++ " had a conversation with " ++ env.agent2Name ++
       " about " ++ summaryText

/-- Lines 91-102: the score reaching `event_log["importance"]`
(`None` when `memory_text` is empty or the scoring call yielded nothing). -/
def scoreOf (env : ConvEnv) (dialogue : List Turn) : Option ℤ :=
  let memoryText := memoryTextOf env (summaryTextOf env (convoTextOf dialogue))
  if memoryText ≠ "" then env.importanceScore memoryText else none

/-- `store_turns` (lines 69-117): dedupe on the full dialogue; summarize;
score importance (which, when it succeeds, persists one `MemoryEntry` naming
both participants via `log_conv_memory`); append one `DialogueEvent` to each
agent's in-memory log and to the event-log file. -/
def store_turns (env : ConvEnv) (st : ConvState) (dialogue : List Turn)
    (context : String) : ConvState :=
  if dialogue = [] then st
  else
    let key := dialogueKey context dialogue
    if key ∈ st.seen then st
    else
      let summaryText := summaryTextOf env (convoTextOf dialogue)
      let score := scoreOf env dialogue
      let memoryLog :=
        match score with
        | some n => st.memoryLog ++
            [{ ts_created := env.memTs, ts_last_accessed := env.memTs,
               importance := n, participants := [env.agent1Name, env.agent2Name],
               text := summaryText }]
        | none => st.memoryLog
      let ev : DialogueEvent :=
        { timestamp := env.eventTs, context := context,
          participants := [env.agent1Name, env.agent2Name],
          dialogue := dialogue, importance := score }
      { seen := st.seen ++ [key]
        eventLog := st.eventLog ++ [ev]
        memoryLog := memoryLog
        agent1Memory := st.agent1Memory ++ [ev]
        agent2Memory := st.agent2Memory ++ [ev] }

/-- C8 (amended): invoking `store_turns` on a non-empty, not-yet-seen
dialogue appends exactly one `DialogueEvent` to the event log, and — when
importance scoring succeeds — exactly one `MemoryEntry`, which names both
participants (not one entry per participant, the correction to the claim);
any second invocation with the same `(context, (speaker, text))` key changes
nothing, whatever its collaborators return. -/
theorem c8_store_turns_dedup (env : ConvEnv) (st : ConvState) (dialogue : List Turn)
    (context : String) (n : ℤ)
    (h1 : dialogue ≠ [])
    (h2 : dialogueKey context dialogue ∉ st.seen)
    (h3 : scoreOf env dialogue = some n) :
    (store_turns env st dialogue context).eventLog
      = st.eventLog ++
        [⟨env.eventTs, context, [env.agent1Name, env.agent2Name], dialogue, some n⟩] ∧
    (store_turns env st dialogue context).memoryLog
      = st.memoryLog ++
        [⟨env.memTs, env.memTs, n, [env.agent1Name, env.agent2Name],
          summaryTextOf env (convoTextOf dialogue)⟩] ∧
    (∀ env2 : ConvEnv,
      store_turns env2 (store_turns env st dialogue context) dialogue context
        = store_turns env st dialogue context) := by
  refine ⟨?_, ?_, ?_⟩
  · simp [store_turns, h1, h2, h3]
  · simp [store_turns, h1, h2, h3]
  · intro env2
    have hmem : dialogueKey context dialogue ∈ (store_turns env st dialogue context).seen := by
      simp [store_turns, h1, h2]
    rw [store_turns, if_neg h1, if_pos hmem]

/-- C8 witness: a concrete successful store followed by a duplicate call. -/
theorem c8_witness :
    (store_turns ⟨"Sam", "Lily", "T0", "M0", fun _ => some "lunch plans", fun _ => some 5⟩
        {} [{ speaker := some "Sam", text := some "hello" }] "cafe chat").eventLog
      = [⟨"T0", "cafe chat", ["Sam", "Lily"],
          [{ speaker := some "Sam", text := some "hello" }], some 5⟩] ∧
    (store_turns ⟨"Sam", "Lily", "T0", "M0", fun _ => some "lunch plans", fun _ => some 5⟩
        {} [{ speaker := some "Sam", text := some "hello" }] "cafe chat").memoryLog
      = [⟨"M0", "M0", 5, ["Sam", "Lily"],
          summaryTextOf
            ⟨"Sam", "Lily", "T0", "M0", fun _ => some "lunch plans", fun _ => some 5⟩
            (convoTextOf [{ speaker := some "Sam", text := some "hello" }])⟩] ∧
    (∀ env2 : ConvEnv,
      store_turns env2
        (store_turns ⟨"Sam", "Lily", "T0", "M0", fun _ => some "lunch plans", fun _ => some 5⟩
          {} [{ speaker := some "Sam", text := some "hello" }] "cafe chat")
        [{ speaker := some "Sam", text := some "hello" }] "cafe chat"
      = store_turns ⟨"Sam", "Lily", "T0", "M0", fun _ => some "lunch plans", fun _ => some 5⟩
          {} [{ speaker := some "Sam", text := some "hello" }] "cafe chat") := by
  have h := c8_store_turns_dedup
    ⟨"Sam", "Lily", "T0", "M0", fun _ => some "lunch plans", fun _ => some 5⟩
    {} [{ speaker := some "Sam", text := some "hello" }] "cafe chat" 5
    (by decide) (by simp) (by rfl)
  simpa using h

/-- C8 counterexample: a successful store with two participants persists a
single `MemoryEntry` (naming both), not the two entries that "one MemoryEntry
per participant" would require. -/
theorem c8_counterexample :
    ((store_turns ⟨"Sam", "Lily", "T1", "M1", fun _ => some "gossip", fun _ => some 3⟩
        {} [{ speaker := some "Lily", text := some "hi" }] "street").memoryLog.length = 1) ∧
    ((store_turns ⟨"Sam", "Lily", "T1", "M1", fun _ => some "gossip", fun _ => some 3⟩
        {} [{ speaker := some "Lily", text := some "hi" }] "street").memoryLog.map
          (fun m => m.participants.length) = [2]) ∧
    ¬ ((store_turns ⟨"Sam", "Lily", "T1", "M1", fun _ => some "gossip", fun _ => some 3⟩
        {} [{ speaker := some "Lily", text := some "hi" }] "street").memoryLog.length = 2) := by
  refine ⟨?_, ?_, ?_⟩ <;> simp [store_turns, scoreOf, memoryTextOf, summaryTextOf, convoTextOf,
    dialogueKey]

/-! ## MemoryStore relevance ranker (`brain.py` `_relevant_memories`, lines 135-182)

`datetime.fromisoformat`/`datetime.now` are modelled by a `parseDays`
parameter returning the computed `(now - dt).days` for a parseable timestamp
string and `none` for one the `try` block fails on.  The bag-of-words cosine
uses the `sqrtQ` square-root parameter (`** 0.5`). -/

/-- A memory dict as scored by `_relevant_memories` (absent keys = `none`;
`importance` is read with default 0 and divided by 10). -/
structure MemoryRec where
  text : Option String := none
  importance : Option ℚ := none
  ts_last_accessed : Option String := none
deriving Repr, DecidableEq

/-- Python `str.lower()` (ASCII case folding, character by character). -/
def pyLower (s : String) : String := String.mk (s.data.map Char.toLower)

/-- Is this character Python `str.split()` whitespace? -/
def isSpaceChar (c : Char) : Bool := c = ' ' ∨ c = '\t' ∨ c = '\n' ∨ c = '\r'

/-- Accumulator pass for `pyWords`. -/
def pyWordsAux : List Char → List Char → List String
  | [], acc => if acc.isEmpty then [] else [String.mk acc.reverse]
  | c :: cs, acc =>
    if isSpaceChar c then
      (if acc.isEmpty then [] else [String.mk acc.reverse]) ++ pyWordsAux cs []
    else pyWordsAux cs (c :: acc)

/-- Python `str.split()`: whitespace-separated words, empties dropped. -/
def pyWords (s : String) : List String := pyWordsAux s.data []

/-- Occurrence count of `w` (the `to_counts` dict entry for key `w`). -/
def wordCount (ws : List String) (w : String) : ℕ := (ws.filter (· = w)).length

/-- `cosine_overlap` (lines 143-162): bag-of-words cosine similarity with the
source's guards: 0 if either string is empty, has no words, or has zero
norm. -/
def cosine_overlap (sqrtQ : ℚ → ℚ) (a b : String) : ℚ :=
  if a = "" ∨ b = "" then 0
  else
    let ca := pyWords a
    let cb := pyWords b
    if ca = [] ∨ cb = [] then 0
    else
      let dot : ℚ := (ca.dedup.map fun w => (wordCount ca w : ℚ) * (wordCount cb w : ℚ)).sum
      let na := sqrtQ ((ca.dedup.map fun w => ((wordCount ca w : ℚ)) ^ 2).sum)
      let nb := sqrtQ ((cb.dedup.map fun w => ((wordCount cb w : ℚ)) ^ 2).sum)
      if na = 0 ∨ nb = 0 then 0 else dot / (na * nb)

/-- `recency_score` (lines 164-170): linear decay to zero over 30 days, 0.5 on
any parse failure.  An absent `ts_last_accessed` key yields the literal
default string `"ts_created"`, which never parses, hence 0.5. -/
def recency_score (parseDays : String → Option ℤ) (ts : Option String) : ℚ :=
  match ts with
  | none => 1/2
  | some s =>
    match parseDays s with
    | none => 1/2
    | some days => max 0 (1 - min ((days : ℚ) / 30) 1)

/-- Line 141: the lowercased query, skipping empty components. -/
def queryOf (other context : Option String) : String :=
  (String.intercalate " "
    (([pyLower (other.getD ""), pyLower (context.getD "")]).filter (· ≠ ""))).trim

/-- Line 177: `cosine_overlap(query, text) if query else 0.0` on the
lowercased memory text. -/
def relevanceOf (sqrtQ : ℚ → ℚ) (query : String) (m : MemoryRec) : ℚ :=
  if query ≠ "" then cosine_overlap sqrtQ query (pyLower (m.text.getD "")) else 0

/-- Line 178: `score = (importance * 0.4) + (rec * 0.3) + (relevance * 0.3)`
with `importance = float(m.get("importance", 0)) / 10.0`. -/
def memScore (sqrtQ : ℚ → ℚ) (parseDays : String → Option ℤ) (query : String)
    (m : MemoryRec) : ℚ :=
  (m.importance.getD 0 / 10) * (4/10)
    + recency_score parseDays m.ts_last_accessed * (3/10)
    + relevanceOf sqrtQ query m * (3/10)

/-- `_relevant_memories` (lines 135-182): score every memory, stable-sort by
score descending (`scored.sort(key=..., reverse=True)` — Python's Timsort is
stable, modelled by the stable `mergeSort`), return the first `limit`
memories (source default `limit=3`). -/
def relevant_memories (sqrtQ : ℚ → ℚ) (parseDays : String → Option ℤ)
    (mems : List MemoryRec) (other context : Option String) (limit : ℕ) :
    List MemoryRec :=
  let query := queryOf other context
  let scored := mems.map fun m => (memScore sqrtQ parseDays query m, m)
  let sorted := scored.mergeSort fun x y => decide (y.1 ≤ x.1)
  (sorted.take limit).map (fun p => p.2)

theorem scoreDesc_trans (a b c : ℚ × MemoryRec)
    (h1 : (fun x y : ℚ × MemoryRec => decide (y.1 ≤ x.1)) a b)
    (h2 : (fun x y : ℚ × MemoryRec => decide (y.1 ≤ x.1)) b c) :
    (fun x y : ℚ × MemoryRec => decide (y.1 ≤ x.1)) a c := by
  simp only [decide_eq_true_eq] at *
  exact le_trans h2 h1

theorem scoreDesc_total (a b : ℚ × MemoryRec) :
    ((fun x y : ℚ × MemoryRec => decide (y.1 ≤ x.1)) a b
      || (fun x y : ℚ × MemoryRec => decide (y.1 ≤ x.1)) b a) = true := by
  simp only [Bool.or_eq_true, decide_eq_true_eq]
  exact (le_total b.1 a.1)

/-- C7 (confirmed): the ranker scores each memory as
`0.4·(importance/10) + 0.3·recency + 0.3·relevance`; the score is monotone in
the three components, the selection lists memories in descending score order,
and the stable sort keeps equal-score entries in original order. -/
theorem c7_ranker_monotone_sorted (sqrtQ : ℚ → ℚ) (parseDays : String → Option ℤ)
    (other context : Option String) :
    (∀ mA mB : MemoryRec,
      mB.importance.getD 0 ≤ mA.importance.getD 0 →
      recency_score parseDays mB.ts_last_accessed
        ≤ recency_score parseDays mA.ts_last_accessed →
      relevanceOf sqrtQ (queryOf other context) mB
        ≤ relevanceOf sqrtQ (queryOf other context) mA →
      memScore sqrtQ parseDays (queryOf other context) mB
        ≤ memScore sqrtQ parseDays (queryOf other context) mA) ∧
    (∀ (mems : List MemoryRec) (limit : ℕ),
      (relevant_memories sqrtQ parseDays mems other context limit).Pairwise
        (fun x y => memScore sqrtQ parseDays (queryOf other context) y
          ≤ memScore sqrtQ parseDays (queryOf other context) x)) ∧
    (∀ (mems : List MemoryRec) (p q : ℚ × MemoryRec), p.1 = q.1 →
      List.Sublist [p, q]
        (mems.map fun m => (memScore sqrtQ parseDays (queryOf other context) m, m)) →
      List.Sublist [p, q]
        ((mems.map fun m => (memScore sqrtQ parseDays (queryOf other context) m, m)).mergeSort
          fun x y => decide (y.1 ≤ x.1))) := by
  refine ⟨?_, ?_, ?_⟩
  · intro mA mB himp hrecency hrel
    unfold memScore
    gcongr
  · intro mems limit
    have hsorted :=
      List.sorted_mergeSort scoreDesc_trans scoreDesc_total
        (mems.map fun m => (memScore sqrtQ parseDays (queryOf other context) m, m))
    have hscores : ∀ p : ℚ × MemoryRec,
        p ∈ (mems.map fun m => (memScore sqrtQ parseDays (queryOf other context) m, m)).mergeSort
            (fun x y => decide (y.1 ≤ x.1)) →
        p.1 = memScore sqrtQ parseDays (queryOf other context) p.2 := by
      intro p hp
      rw [List.mem_mergeSort, List.mem_map] at hp
      obtain ⟨m, _, hm⟩ := hp
      rw [← hm]
    have hPairs : ((mems.map fun m => (memScore sqrtQ parseDays (queryOf other context) m, m)).mergeSort
          (fun x y => decide (y.1 ≤ x.1))).Pairwise
        (fun x y : ℚ × MemoryRec =>
          memScore sqrtQ parseDays (queryOf other context) y.2
            ≤ memScore sqrtQ parseDays (queryOf other context) x.2) := by
      refine hsorted.imp_of_mem ?_
      intro a b ha hb hr
      simp only [decide_eq_true_eq] at hr
      rw [← hscores a ha, ← hscores b hb]
      exact hr
    exact List.pairwise_map.mpr (hPairs.sublist (List.take_sublist _ _))
  · intro mems p q hpq hsub
    exact List.pair_sublist_mergeSort scoreDesc_trans scoreDesc_total
      (by simp [hpq]) hsub

/-- C7 witness: two concrete memories differing only in importance, and a
tied pair kept in original order by the stable sort. -/
theorem c7_witness :
    (memScore (fun q => q) (fun _ => none) (queryOf none none) { importance := some 3 }
      ≤ memScore (fun q => q) (fun _ => none) (queryOf none none) { importance := some 5 }) ∧
    ((relevant_memories (fun q => q) (fun _ => none)
        [{ importance := some 5 }, { importance := some 3 }] none none 3).Pairwise
      (fun x y => memScore (fun q => q) (fun _ => none) (queryOf none none) y
        ≤ memScore (fun q => q) (fun _ => none) (queryOf none none) x)) ∧
    List.Sublist
      [(memScore (fun q => q) (fun _ => none) (queryOf none none) { importance := some 3 },
        ({ importance := some 3 } : MemoryRec)),
       (memScore (fun q => q) (fun _ => none) (queryOf none none) { importance := some 3 },
        ({ importance := some 3 } : MemoryRec))]
      ((([({ importance := some 3 } : MemoryRec), { importance := some 3 }]).map
        (fun m => (memScore (fun q => q) (fun _ => none) (queryOf none none) m, m))).mergeSort
        (fun x y => decide (y.1 ≤ x.1))) := by
  refine ⟨?_, ?_, ?_⟩
  · exact (c7_ranker_monotone_sorted (fun q => q) (fun _ => none) none none).1
      { importance := some 5 } { importance := some 3 } (by decide) (le_refl _) (le_refl _)
  · exact (c7_ranker_monotone_sorted (fun q => q) (fun _ => none) none none).2.1
      [{ importance := some 5 }, { importance := some 3 }] 3
  · exact (c7_ranker_monotone_sorted (fun q => q) (fun _ => none) none none).2.2
      [{ importance := some 3 }, { importance := some 3 }] _ _ rfl (List.Sublist.refl _)

/-! ## MetricsEngine inherent-drift detection
(`app/src/utils/metrics.py` `detect_inherent_drift`, lines 78-162, and
`cosine_sim`, lines 58-64)

The embedding service `embed_texts` is a parameter `embed` mapping each text
to its vector (so the `len(vecs) != 4` guard never fires and `cosine_sim`'s
`None` guard is vacuous); `np.linalg.norm` is `sqrtQ` of the sum of squares.
A tick row is represented by the four fields the detector reads (each
`.get`/`or {}` chain collapsed into one optional field). -/

/-- `np.dot` on equal-length vectors. -/
def dotQ (a b : List ℚ) : ℚ := (List.zipWith (· * ·) a b).sum

/-- Σ xᵢ², so that `np.linalg.norm a = sqrtQ (sumSq a)`. -/
def sumSq (a : List ℚ) : ℚ := (a.map fun x => x ^ 2).sum

/-- `cosine_sim` (lines 58-64): `dot / (norm(a) * norm(b) + 1e-8)`. -/
def cosine_sim (sqrtQ : ℚ → ℚ) (a b : List ℚ) : ℚ :=
  dotQ a b / (sqrtQ (sumSq a) * sqrtQ (sumSq b) + 1/100000000)

/-- Boolean prefix test on lists (`needle` starts `hay`). -/
def isPrefixList : List Char → List Char → Bool
  | [], _ => true
  | _ :: _, [] => false
  | a :: as, b :: bs => a = b && isPrefixList as bs

/-- Boolean contiguous-infix test on lists. -/
def isInfixList (needle : List Char) : List Char → Bool
  | [] => needle.isEmpty
  | c :: tl => isPrefixList needle (c :: tl) || isInfixList needle tl

/-- Python's `needle in hay` substring test. -/
def substrOf (needle hay : String) : Bool := isInfixList needle.toList hay.toList

/-- The wandering-language markers of lines 131-138. -/
def wandering_markers : List String :=
  ["thinking about", "mentally", "reflecting on", "daydream", "wandering", "exploring"]

/-- Line 139: `any(w in summary_text for w in wandering_markers)`. -/
def hasWanderingMarker (s : String) : Bool :=
  wandering_markers.any fun w => substrOf w s

/-- The four fields `detect_inherent_drift` reads from a tick row. -/
structure MetricsRow where
  plan_topic : Option String := none
  action_topic : Option String := none
  obs_summary : Option String := none
  act_summary : Option String := none
deriving Repr, DecidableEq

/-- The dict returned by `detect_inherent_drift`. -/
structure InherentDriftResult where
  inherent_drift : Bool
  drift_score_inferred : ℚ
  drift_type_inferred : String
  sim_plan_action : ℚ
  sim_obs_action : ℚ
deriving Repr, DecidableEq

/-- `detect_inherent_drift` (lines 78-162). -/
def detect_inherent_drift (sqrtQ : ℚ → ℚ) (embed : String → List ℚ)
    (row : MetricsRow) : InherentDriftResult :=
  let plan_topic := row.plan_topic.getD ""
  let action_topic := row.action_topic.getD ""
  let obs_summary := row.obs_summary.getD ""
  let act_summary := row.act_summary.getD ""
  if plan_topic = "" ∧ action_topic = "" ∧ obs_summary = "" ∧ act_summary = "" then
    ⟨false, 0, "none", 0, 0⟩
  else
    let v_plan := embed plan_topic
    let v_action := embed action_topic
    let v_obs := embed obs_summary
    let v_actsum := embed act_summary
    let sim_plan_action := cosine_sim sqrtQ v_plan v_action
    let sim_obs_act := cosine_sim sqrtQ v_obs v_actsum
    let topic_drift := decide (sim_plan_action < 11/20)
    let summary_drift := decide (sim_obs_act < 11/20)
    let mental_drift := hasWanderingMarker (pyLower act_summary)
    let drift_score := 1 - max sim_plan_action sim_obs_act
    let is_drift := topic_drift || summary_drift || mental_drift
    let drift_type :=
      if is_drift = false then "none"
      else if mental_drift then "internal"
      else if topic_drift then "behavioral"
      else "attentional_leak"
    ⟨is_drift, drift_score, drift_type, sim_plan_action, sim_obs_act⟩

theorem dotQ_self (a : List ℚ) : dotQ a a = sumSq a := by
  induction a with
  | nil => rfl
  | cons x xs ih =>
    simp [dotQ, sumSq] at ih ⊢
    rw [ih]
    ring

/-- Self-similarity bounds: a vector of squared norm at least `1e-4` has
`cosine_sim` with itself at least `11/20`, at most 1, and within `1e-4`
of 1. -/
theorem selfSim_bounds (sqrtQ : ℚ → ℚ) (v : List ℚ)
    (hS : 1/10000 ≤ sumSq v)
    (hsq : sqrtQ (sumSq v) * sqrtQ (sumSq v) = sumSq v) :
    11/20 ≤ cosine_sim sqrtQ v v ∧ cosine_sim sqrtQ v v ≤ 1 ∧
      1 - cosine_sim sqrtQ v v ≤ 1/10000 := by
  unfold cosine_sim
  rw [dotQ_self, hsq]
  have hpos : 0 < sumSq v + 1/100000000 := by linarith
  refine ⟨?_, ?_, ?_⟩
  · rw [le_div_iff₀ hpos]; linarith
  · rw [div_le_one hpos]; linarith
  · have h9 : (9999/10000 : ℚ) ≤ sumSq v / (sumSq v + 1/100000000) := by
      rw [le_div_iff₀ hpos]; linarith
    linarith

/-- C9 (amended): if `plan.topic` equals `action_result.topic` verbatim and
`observation.state_summary` equals `action_result.state_summary` verbatim,
and additionally the action summary contains no wandering-language marker and
the embeddings of the compared texts are non-degenerate (squared norm at
least `1e-4`), then inherent-drift detection reports `inherent_drift = false`
and an inferred drift score within `1e-4` of 0.  (The marker and
non-degeneracy conditions are the corrections: the marker check fires on
verbatim-equal texts, and a zero embedding drives both similarities to 0.) -/
theorem c9_zero_divergence (sqrtQ : ℚ → ℚ) (embed : String → List ℚ)
    (row : MetricsRow)
    (hpt : row.plan_topic.getD "" = row.action_topic.getD "")
    (hos : row.obs_summary.getD "" = row.act_summary.getD "")
    (hmark : hasWanderingMarker (pyLower (row.act_summary.getD "")) = false)
    (hS1 : 1/10000 ≤ sumSq (embed (row.plan_topic.getD "")))
    (hS2 : 1/10000 ≤ sumSq (embed (row.obs_summary.getD "")))
    (hsq1 : sqrtQ (sumSq (embed (row.plan_topic.getD ""))) *
        sqrtQ (sumSq (embed (row.plan_topic.getD "")))
      = sumSq (embed (row.plan_topic.getD "")))
    (hsq2 : sqrtQ (sumSq (embed (row.obs_summary.getD ""))) *
        sqrtQ (sumSq (embed (row.obs_summary.getD "")))
      = sumSq (embed (row.obs_summary.getD ""))) :
    (detect_inherent_drift sqrtQ embed row).inherent_drift = false ∧
    0 ≤ (detect_inherent_drift sqrtQ embed row).drift_score_inferred ∧
    (detect_inherent_drift sqrtQ embed row).drift_score_inferred ≤ 1/10000 := by
  obtain ⟨hb1, hb2, hb3⟩ := selfSim_bounds sqrtQ (embed (row.plan_topic.getD "")) hS1 hsq1
  obtain ⟨hc1, hc2, hc3⟩ := selfSim_bounds sqrtQ (embed (row.obs_summary.getD "")) hS2 hsq2
  rw [← hos] at hmark
  by_cases hall : row.plan_topic.getD "" = "" ∧ row.action_topic.getD "" = ""
      ∧ row.obs_summary.getD "" = "" ∧ row.act_summary.getD "" = ""
  · simp only [detect_inherent_drift, if_pos hall]
    norm_num
  · simp only [detect_inherent_drift, if_neg hall]
    rw [← hpt, ← hos]
    have ht : decide (cosine_sim sqrtQ (embed (row.plan_topic.getD ""))
        (embed (row.plan_topic.getD "")) < 11/20) = false :=
      decide_eq_false (not_lt.2 hb1)
    have hs : decide (cosine_sim sqrtQ (embed (row.obs_summary.getD ""))
        (embed (row.obs_summary.getD "")) < 11/20) = false :=
      decide_eq_false (not_lt.2 hc1)
    refine ⟨?_, ?_, ?_⟩
    · simp only [ht, hs, hmark, Bool.or_self, Bool.or_false, Bool.false_or]
    · rcases max_cases (cosine_sim sqrtQ (embed (row.plan_topic.getD ""))
          (embed (row.plan_topic.getD "")))
          (cosine_sim sqrtQ (embed (row.obs_summary.getD ""))
            (embed (row.obs_summary.getD ""))) with ⟨hm, _⟩ | ⟨hm, _⟩ <;>
        simp only [hm] <;> linarith
    · rcases max_cases (cosine_sim sqrtQ (embed (row.plan_topic.getD ""))
          (embed (row.plan_topic.getD "")))
          (cosine_sim sqrtQ (embed (row.obs_summary.getD ""))
            (embed (row.obs_summary.getD ""))) with ⟨hm, _⟩ | ⟨hm, _⟩ <;>
        simp only [hm] <;> linarith

/-- C9 witness: verbatim-equal topics and summaries, no wandering language,
unit embeddings, identity square root on the value 1. -/
theorem c9_witness :
    (detect_inherent_drift (fun x => x) (fun _ => [1])
      { plan_topic := some "work", action_topic := some "work",
        obs_summary := some "busy", act_summary := some "busy" }).inherent_drift = false ∧
    0 ≤ (detect_inherent_drift (fun x => x) (fun _ => [1])
      { plan_topic := some "work", action_topic := some "work",
        obs_summary := some "busy", act_summary := some "busy" }).drift_score_inferred ∧
    (detect_inherent_drift (fun x => x) (fun _ => [1])
      { plan_topic := some "work", action_topic := some "work",
        obs_summary := some "busy", act_summary := some "busy" }).drift_score_inferred
      ≤ 1/10000 :=
  c9_zero_divergence (fun x => x) (fun _ => [1])
    { plan_topic := some "work", action_topic := some "work",
      obs_summary := some "busy", act_summary := some "busy" }
    rfl rfl (by decide) (by norm_num [sumSq]) (by norm_num [sumSq])
    (by norm_num [sumSq]) (by norm_num [sumSq])

/-- C9 counterexample: with `plan.topic == action_result.topic` and
`observation.state_summary == action_result.state_summary` verbatim, a
wandering-language marker in the summary still makes the detector report
`inherent_drift = true`, refuting the claim as stated. -/
theorem c9_counterexample :
    ({ plan_topic := some "work", action_topic := some "work",
       obs_summary := some "thinking about lunch",
       act_summary := some "thinking about lunch" } : MetricsRow).plan_topic.getD ""
      = ({ plan_topic := some "work", action_topic := some "work",
           obs_summary := some "thinking about lunch",
           act_summary := some "thinking about lunch" } : MetricsRow).action_topic.getD "" ∧
    ({ plan_topic := some "work", action_topic := some "work",
       obs_summary := some "thinking about lunch",
       act_summary := some "thinking about lunch" } : MetricsRow).obs_summary.getD ""
      = ({ plan_topic := some "work", action_topic := some "work",
           obs_summary := some "thinking about lunch",
           act_summary := some "thinking about lunch" } : MetricsRow).act_summary.getD "" ∧
    (detect_inherent_drift (fun x => x) (fun _ => [1])
      { plan_topic := some "work", action_topic := some "work",
        obs_summary := some "thinking about lunch",
        act_summary := some "thinking about lunch" }).inherent_drift = true ∧
    (detect_inherent_drift (fun x => x) (fun _ => [1])
      { plan_topic := some "work", action_topic := some "work",
        obs_summary := some "thinking about lunch",
        act_summary := some "thinking about lunch" }).drift_type_inferred = "internal" := by
  have hsim : cosine_sim (fun x : ℚ => x) [1] [1] = 100000000/100000001 := by
    norm_num [cosine_sim, dotQ, sumSq]
  have hnlt : ¬ ((100000000/100000001 : ℚ) < 11/20) := by norm_num
  have hmk : hasWanderingMarker (pyLower "thinking about lunch") = true := by decide
  refine ⟨rfl, rfl, ?_, ?_⟩ <;>
  · simp only [detect_inherent_drift, Option.getD_some]
    rw [if_neg (by decide)]
    simp [hsim, decide_eq_false hnlt, hmk]

/-! ## StageOrchestrator (`orpda_runner.py`, lines 167-212 and 422-504)

`run_orpda_cycle` consumes the runner's events (lists of parts, each with
optional text) and merges JSON payloads extracted from them.  `json.loads` is
the parameter `jsonParse` (`none` = `json.loads` raised).  Python values are
modelled by `PyVal`; `PyVal.pynone` is Python `None`, which is both what the
five merge slots are initialized to and what JSON `null` parses to.
`Except.error ()` models an uncaught exception (`TypeError` from `key in
data` / `data[key]` on non-dict payloads, `AttributeError` from
`build_observation` when `current_slot` is `None`). -/

/-- A Python value as produced by `json.loads`. -/
inductive PyVal where
  | pynone
  | pybool (b : Bool)
  | pynum (q : ℚ)
  | pystr (s : String)
  | pylist (xs : List PyVal)
  | pydict (kvs : List (String × PyVal))

/-- `extract_json_from_markdown` (lines 422-428): strip an enclosing code
fence (drop the first and last line whenever the trimmed text starts with
three backticks). -/
def extract_json_from_markdown (text : String) : String :=
  let t := text.trim
  if t.startsWith "```" then
    (String.intercalate "\n" (((t.splitOn "\n").drop 1).dropLast)).trim
  else t

/-- The slot dict inside the orchestrator's context, as read by
`build_observation`. -/
structure CtxSlot where
  datetime_start : Option String := none
  duration_min : Option ℤ := none
  location : Option String := none
  action : Option String := none
deriving Repr, DecidableEq

/-- The previous action result inside the context, as read by
`build_observation`. -/
structure LastAction where
  next_datetime : Option String := none
  location : Option String := none
  action : Option String := none
deriving Repr, DecidableEq

/-- The context fields `build_observation` reads.  For `current_slot`, the
outer `Option` is key presence (`none` = key absent, so `ctx.get` yields
`{}`), the inner one distinguishes the `None` value the simulation driver
stores on a schedule gap (on which `current_slot.get(...)` raises) from a
slot dict. -/
structure SimCtx where
  personaName : Option String := none
  current_slot : Option (Option CtxSlot) := none
  last_action_result : Option LastAction := none
deriving Repr, DecidableEq

/-- `dict.get(k, default)`: the first option when the key is present, else
the default. -/
def getOr (a b : Option String) : Option String :=
  match a with
  | some x => some x
  | none => b

/-- The five keys of the observation dict built by `build_observation`. -/
structure BuiltObservation where
  datetime_start : Option String
  duration_min : ℤ
  location : Option String
  action : Option String
  state_summary : String
deriving Repr, DecidableEq

/-- `build_observation` (lines 167-212).  `current_slot` present-but-`None`
raises (`None.get`); Python renders a `None` location/action as the string
`"None"` inside the f-string; `duration = min(slot_duration or 15, 15)`;
the summary is truncated to 160 characters. -/
def build_observation (ctx : SimCtx) : Except Unit BuiltObservation :=
  match ctx.current_slot with
  | some none => .error ()
  | cur =>
    let slot : CtxSlot :=
      match cur with
      | some (some s) => s
      | _ => {}
    let name := ctx.personaName.getD "The person"
    let triple :=
      match ctx.last_action_result with
      | some last =>
        (getOr last.next_datetime slot.datetime_start,
         getOr last.location slot.location,
         getOr last.action slot.action)
      | none => (slot.datetime_start, slot.location, slot.action)
    let slotDuration : ℤ :=
      match slot.duration_min with
      | none => 15
      | some d => if d = 0 then 15 else d
    let duration := min slotDuration 15
    let summary := name ++ " is at " ++ (triple.2.1.getD "None") ++ " doing "
      ++ (triple.2.2.getD "None") ++ "."
    .ok ⟨triple.1, duration, triple.2.1, triple.2.2, summary.take 160⟩

/-- An optional string as a Python value. -/
def pyOfOptStr : Option String → PyVal
  | none => .pynone
  | some s => .pystr s

/-- The observation dict the fallback stores into the merged result. -/
def obsToPy (o : BuiltObservation) : PyVal :=
  .pydict [("datetime_start", pyOfOptStr o.datetime_start),
           ("duration_min", .pynum (o.duration_min : ℚ)),
           ("location", pyOfOptStr o.location),
           ("action", pyOfOptStr o.action),
           ("state_summary", .pystr o.state_summary)]

/-- The `merged` dict seeded with the five keys mapped to `None`
(lines 462-469). -/
structure MergedOut where
  observation : PyVal := .pynone
  reflection : PyVal := .pynone
  plan : PyVal := .pynone
  drift_decision : PyVal := .pynone
  action_result : PyVal := .pynone

/-- `merged[key] = v`. -/
def setKey (m : MergedOut) (k : String) (v : PyVal) : MergedOut :=
  if k = "observation" then { m with observation := v }
  else if k = "reflection" then { m with reflection := v }
  else if k = "plan" then { m with plan := v }
  else if k = "drift_decision" then { m with drift_decision := v }
  else if k = "action_result" then { m with action_result := v }
  else m

/-- Python's `key in data` for the parsed payload: key lookup on dicts,
string-element membership on lists, substring test on strings, and a
`TypeError` on any non-iterable. -/
def pyContains (data : PyVal) (k : String) : Except Unit Bool :=
  match data with
  | .pydict kvs => .ok (kvs.any fun kv => decide (kv.1 = k))
  | .pylist xs => .ok (xs.any fun x => match x with | .pystr s => decide (s = k) | _ => false)
  | .pystr s => .ok (substrOf k s)
  | _ => .error ()

/-- Python's `data[key]` with a string key: dict lookup (the key is known to
be present), `TypeError` on anything else. -/
def pyIndex (data : PyVal) (k : String) : Except Unit PyVal :=
  match data with
  | .pydict kvs => .ok (((kvs.find? fun kv => decide (kv.1 = k)).map Prod.snd).getD .pynone)
  | _ => .error ()

/-- `Except` sequencing for the merge loop. -/
def bindE (x : Except Unit MergedOut) (f : MergedOut → Except Unit MergedOut) :
    Except Unit MergedOut :=
  match x with
  | .error e => .error e
  | .ok m => f m

/-- One `if key in data: merged[key] = data[key]` step (lines 488-497). -/
def applyKey (data : PyVal) (k : String) (acc : MergedOut) : Except Unit MergedOut :=
  match pyContains data k with
  | .error e => .error e
  | .ok c =>
    if c then
      match pyIndex data k with
      | .error e => .error e
      | .ok v => .ok (setKey acc k v)
    else .ok acc

/-- The merge loop over the five known ORPDA keys, in source order. -/
def mergePayload (acc : MergedOut) (data : PyVal) : Except Unit MergedOut :=
  bindE (applyKey data "observation" acc) fun m1 =>
  bindE (applyKey data "reflection" m1) fun m2 =>
  bindE (applyKey data "plan" m2) fun m3 =>
  bindE (applyKey data "drift_decision" m3) fun m4 =>
  applyKey data "action_result" m4

/-- The texts reaching the parse loop: every non-empty part text of every
event (`if not parts: continue` / `if not raw: continue`). -/
def eventTexts (events : List (List (Option String))) : List String :=
  (events.map fun parts =>
    parts.filterMap fun t =>
      match t with
      | some s => if s = "" then none else some s
      | none => none).flatten

/-- Lines 471-497: parse each text, skipping parse failures, and merge
successfully parsed payloads in order (latest pass wins per key). -/
def mergeEvents (jsonParse : String → Option PyVal) :
    List String → MergedOut → Except Unit MergedOut
  | [], acc => .ok acc
  | raw :: rest, acc =>
    match jsonParse (extract_json_from_markdown raw) with
    | none => mergeEvents jsonParse rest acc
    | some data => bindE (mergePayload acc data) (mergeEvents jsonParse rest)

/-- The dict `run_orpda_cycle` returns: key present iff its merged value was
not `None` (line 504). -/
structure OrpdaDict where
  observation : Option PyVal := none
  reflection : Option PyVal := none
  plan : Option PyVal := none
  drift_decision : Option PyVal := none
  action_result : Option PyVal := none

/-- The final comprehension `{k: v for k, v in merged.items() if v is not None}`. -/
def dropNone : PyVal → Option PyVal
  | .pynone => none
  | v => some v

/-- Apply the `None`-dropping comprehension to all five slots. -/
def toDict (m : MergedOut) : OrpdaDict :=
  ⟨dropNone m.observation, dropNone m.reflection, dropNone m.plan,
   dropNone m.drift_decision, dropNone m.action_result⟩

/-- Key access on the returned dict. -/
def getDictKey (d : OrpdaDict) (k : String) : Option PyVal :=
  if k = "observation" then d.observation
  else if k = "reflection" then d.reflection
  else if k = "plan" then d.plan
  else if k = "drift_decision" then d.drift_decision
  else if k = "action_result" then d.action_result
  else none

/-- Lines 499-504: backfill a missing (or `null`) observation from
`build_observation`, then drop `None` values. -/
def finalizeCycle (ctx : SimCtx) (merged : MergedOut) : Except Unit OrpdaDict :=
  match merged.observation with
  | .pynone =>
    match build_observation ctx with
    | .error e => .error e
    | .ok o => .ok (toDict { merged with observation := obsToPy o })
  | _ => .ok (toDict merged)

/-- `run_orpda_cycle` (lines 444-504): merge the stage payloads, backfill a
missing observation, drop `None` values. -/
def run_orpda_cycle (jsonParse : String → Option PyVal) (ctx : SimCtx)
    (events : List (List (Option String))) : Except Unit OrpdaDict :=
  match mergeEvents jsonParse (eventTexts events) {} with
  | .error e => .error e
  | .ok merged => finalizeCycle ctx merged

theorem applyKey_dict_ok (kvs : List (String × PyVal)) (k : String) (acc : MergedOut) :
    ∃ m, applyKey (.pydict kvs) k acc = .ok m := by
  rcases h : kvs.any (fun kv => decide (kv.1 = k)) with _ | _
  · exact ⟨acc, by simp [applyKey, pyContains, h]⟩
  · exact ⟨setKey acc k (((kvs.find? fun kv => decide (kv.1 = k)).map Prod.snd).getD .pynone),
      by simp [applyKey, pyContains, pyIndex, h]⟩

theorem mergePayload_dict_ok (acc : MergedOut) (kvs : List (String × PyVal)) :
    ∃ m, mergePayload acc (.pydict kvs) = .ok m := by
  obtain ⟨m1, h1⟩ := applyKey_dict_ok kvs "observation" acc
  obtain ⟨m2, h2⟩ := applyKey_dict_ok kvs "reflection" m1
  obtain ⟨m3, h3⟩ := applyKey_dict_ok kvs "plan" m2
  obtain ⟨m4, h4⟩ := applyKey_dict_ok kvs "drift_decision" m3
  obtain ⟨m5, h5⟩ := applyKey_dict_ok kvs "action_result" m4
  exact ⟨m5, by simp [mergePayload, bindE, h1, h2, h3, h4, h5]⟩

theorem mergeEvents_ok (jsonParse : String → Option PyVal) (l : List String)
    (acc : MergedOut)
    (hdict : ∀ t ∈ l, ∀ d, jsonParse (extract_json_from_markdown t) = some d →
      ∃ kvs, d = PyVal.pydict kvs) :
    ∃ m, mergeEvents jsonParse l acc = .ok m := by
  induction l generalizing acc with
  | nil => exact ⟨acc, rfl⟩
  | cons raw rest ih =>
    rw [mergeEvents]
    rcases hp : jsonParse (extract_json_from_markdown raw) with _ | d
    · exact ih acc fun t ht => hdict t (List.mem_cons_of_mem _ ht)
    · obtain ⟨kvs, hk⟩ := hdict raw (List.mem_cons_self _ _) d hp
      subst hk
      obtain ⟨m1, h1⟩ := mergePayload_dict_ok acc kvs
      obtain ⟨m2, h2⟩ := ih m1 fun t ht => hdict t (List.mem_cons_of_mem _ ht)
      exact ⟨m2, by simp [bindE, h1, h2]⟩

theorem mergeEvents_all_fail (jsonParse : String → Option PyVal) (l : List String)
    (acc : MergedOut)
    (hfail : ∀ t ∈ l, jsonParse (extract_json_from_markdown t) = none) :
    mergeEvents jsonParse l acc = .ok acc := by
  induction l with
  | nil => rfl
  | cons raw rest ih =>
    rw [mergeEvents, hfail raw (List.mem_cons_self _ _)]
    exact ih fun t ht => hfail t (List.mem_cons_of_mem _ ht)

theorem dropNone_ne_pynone (v : PyVal) : dropNone v ≠ some PyVal.pynone := by
  cases v <;> simp [dropNone]

theorem getDictKey_toDict_ne_pynone (m : MergedOut) (k : String) :
    getDictKey (toDict m) k ≠ some PyVal.pynone := by
  simp only [getDictKey, toDict]
  repeat' split
  all_goals first | exact dropNone_ne_pynone _ | simp

/-- C4 (amended): each stage response is fence-stripped and JSON-parsed; a
parse failure makes that stage contribute nothing, without aborting the tick:
when every response fails to parse, the cycle still returns normally, the
four LLM merge keys (reflection, plan, drift_decision, action_result) remain
unset — not defaulted — but the observation key does not remain unset: it is
backfilled deterministically from the context via `build_observation` (the
correction to the claim). -/
theorem c4_parse_failures_skipped (jsonParse : String → Option PyVal) (ctx : SimCtx)
    (events : List (List (Option String))) (o : BuiltObservation)
    (hfail : ∀ t ∈ eventTexts events, jsonParse (extract_json_from_markdown t) = none)
    (hobs : build_observation ctx = .ok o) :
    run_orpda_cycle jsonParse ctx events
      = .ok ⟨some (obsToPy o), none, none, none, none⟩ := by
  have hrun : run_orpda_cycle jsonParse ctx events = finalizeCycle ctx {} := by
    unfold run_orpda_cycle
    rw [mergeEvents_all_fail jsonParse _ _ hfail]
  rw [hrun]
  simp [finalizeCycle, hobs, toDict, dropNone, obsToPy]

/-- C4 witness: a single unparseable response and a minimal context. -/
theorem c4_witness :
    run_orpda_cycle (fun _ => none) { personaName := some "Isabella" }
        [[some "not json"]]
      = .ok ⟨some (obsToPy ⟨none, 15, none, none, "Isabella is at None doing None."⟩),
             none, none, none, none⟩ :=
  c4_parse_failures_skipped (fun _ => none) { personaName := some "Isabella" }
    [[some "not json"]] ⟨none, 15, none, none, "Isabella is at None doing None."⟩
    (fun _ _ => rfl) rfl

/-- C4 counterexample: with no successfully parsed payload at all, the
returned dict still carries an observation entry, so "any of the five merge
keys supplied by no successfully parsed payload remains unset" is false for
the observation key. -/
theorem c4_counterexample :
    (run_orpda_cycle (fun _ => none) { personaName := some "Isabella" } []).map
        (fun out => out.observation.isSome) = Except.ok true := rfl

theorem finalizeCycle_spec (ctx : SimCtx) (m : MergedOut) (o : BuiltObservation)
    (hobs : build_observation ctx = .ok o) :
    ∃ out, finalizeCycle ctx m = .ok out ∧
      out.observation.isSome = true ∧
      (∀ k, getDictKey out k ≠ some PyVal.pynone) := by
  unfold finalizeCycle
  cases hmo : m.observation with
  | pynone =>
    rw [hobs]
    refine ⟨_, rfl, ?_, fun k => getDictKey_toDict_ne_pynone _ _⟩
    simp [toDict, obsToPy, dropNone]
  | pybool b =>
    refine ⟨_, rfl, ?_, fun k => getDictKey_toDict_ne_pynone _ _⟩
    simp [toDict, hmo, dropNone]
  | pynum q =>
    refine ⟨_, rfl, ?_, fun k => getDictKey_toDict_ne_pynone _ _⟩
    simp [toDict, hmo, dropNone]
  | pystr s =>
    refine ⟨_, rfl, ?_, fun k => getDictKey_toDict_ne_pynone _ _⟩
    simp [toDict, hmo, dropNone]
  | pylist xs =>
    refine ⟨_, rfl, ?_, fun k => getDictKey_toDict_ne_pynone _ _⟩
    simp [toDict, hmo, dropNone]
  | pydict kvs =>
    refine ⟨_, rfl, ?_, fun k => getDictKey_toDict_ne_pynone _ _⟩
    simp [toDict, hmo, dropNone]

/-- C10 (amended): whenever every successfully parsed payload is a JSON
object and `build_observation` succeeds on the context (its `current_slot`
is not `None`), `run_orpda_cycle` returns a dictionary that contains an
observation entry and maps none of the five stage keys to `None` — stages
with no output are omitted entirely.  (The corrections: a payload that is a
bare JSON scalar, or a list/string containing a stage-key name, raises
`TypeError` in the merge loop, and a `None` `current_slot` makes the
observation fallback raise, so the cycle does not return at all on such
inputs.) -/
theorem c10_observation_always_present (jsonParse : String → Option PyVal)
    (ctx : SimCtx) (events : List (List (Option String))) (o : BuiltObservation)
    (hdict : ∀ t ∈ eventTexts events, ∀ d, jsonParse (extract_json_from_markdown t) = some d →
      ∃ kvs, d = PyVal.pydict kvs)
    (hobs : build_observation ctx = .ok o) :
    ∃ out, run_orpda_cycle jsonParse ctx events = .ok out ∧
      out.observation.isSome = true ∧
      (∀ k, getDictKey out k ≠ some PyVal.pynone) := by
  obtain ⟨m, hm⟩ := mergeEvents_ok jsonParse (eventTexts events) {} hdict
  have hrun : run_orpda_cycle jsonParse ctx events = finalizeCycle ctx m := by
    unfold run_orpda_cycle
    rw [hm]
  rw [hrun]
  exact finalizeCycle_spec ctx m o hobs

/-- C10 witness: no events and a context with no `current_slot` key. -/
theorem c10_witness :
    ∃ out, run_orpda_cycle (fun _ => none) { personaName := some "Maxime" } []
        = .ok out ∧
      out.observation.isSome = true ∧
      (∀ k, getDictKey out k ≠ some PyVal.pynone) :=
  c10_observation_always_present (fun _ => none) { personaName := some "Maxime" } []
    ⟨none, 15, none, none, "Maxime is at None doing None."⟩
    (fun t ht => by simp [eventTexts] at ht) rfl

/-- C10 counterexample: a context whose `current_slot` key holds `None` (a
schedule gap) with no parsed observation makes `build_observation` raise, so
`run_orpda_cycle` does not return a dictionary at all, refuting "for every
input context". -/
theorem c10_counterexample :
    run_orpda_cycle (fun _ => none) { current_slot := some none } []
      = Except.error () := rfl

/-! ## RateLimiter (`gemini_api.py` `RateLimiter.acquire`, lines 23-42)

One `acquire()` with a simulated clock: evict timestamps strictly older than
60 seconds, and when the deque still holds `rate` or more entries sleep
`60 - (now - calls[0]) + 0.1` seconds, so the call completes at
`calls[0] + 60.1`; then append the completion time.  Sequential execution
(spec §5) means the next call's clock reading is the previous completion
time plus a non-negative delay. -/

/-- Membership of a timestamp in the closed trailing window `[t-60, t]`. -/
def window (t x : ℚ) : Bool := decide (t - 60 ≤ x ∧ x ≤ t)

/-- `RateLimiter.acquire` (lines 28-39) under a simulated clock reading
`now`: returns the new deque and this call's completion time. -/
def acquire (rate : ℕ) (calls : List ℚ) (now : ℚ) : List ℚ × ℚ :=
  let s := calls.dropWhile fun x => decide (x < now - 60)
  if rate ≤ s.length then
    let c := s.headD 0 + 601/10
    (s ++ [c], c)
  else (s ++ [now], now)

/-- A sequential run of `acquire()` calls: each call's clock reading is the
previous completion time plus its delay.  Returns the completion times. -/
def runAcquires (rate : ℕ) (calls : List ℚ) (tprev : ℚ) : List ℚ → List ℚ
  | [] => []
  | δ :: rest =>
    let r := acquire rate calls (tprev + δ)
    r.2 :: runAcquires rate r.1 r.2 rest

theorem acquire_fst (rate : ℕ) (calls : List ℚ) (now : ℚ) :
    (acquire rate calls now).1
      = (calls.dropWhile fun x => decide (x < now - 60)) ++ [(acquire rate calls now).2] := by
  simp only [acquire]
  split <;> rfl

/-- A stronger `dropWhile` drops at least as much. -/
theorem dropWhile_length_mono (p q : ℚ → Bool) (himp : ∀ x, p x = true → q x = true) :
    ∀ l : List ℚ, (l.dropWhile q).length ≤ (l.dropWhile p).length := by
  intro l
  induction l with
  | nil => simp
  | cons a l ih =>
    rw [List.dropWhile_cons, List.dropWhile_cons]
    by_cases hp : p a = true
    · rw [if_pos hp, if_pos (himp a hp)]
      exact ih
    · rw [if_neg hp]
      by_cases hq : q a = true
      · rw [if_pos hq]
        exact Nat.le_trans (List.Sublist.length_le (List.dropWhile_sublist _)) (by simp)
      · rw [if_neg hq]

/-- The completion time never precedes the clock reading. -/
theorem acquire_snd_ge (rate : ℕ) (hrate : 1 ≤ rate) (calls : List ℚ) (now : ℚ) :
    now ≤ (acquire rate calls now).2 := by
  by_cases hcap : rate ≤ (calls.dropWhile fun x => decide (x < now - 60)).length
  · have hne : (calls.dropWhile fun x => decide (x < now - 60)) ≠ [] := by
      intro h
      rw [h] at hcap
      simp at hcap
      omega
    obtain ⟨a, as, hcons⟩ := List.exists_cons_of_ne_nil hne
    have h0 := List.head?_dropWhile_not (fun x => decide (x < now - 60)) calls
    rw [hcons] at h0
    simp only [List.head?_cons] at h0
    have hanot : ¬ (a < now - 60) := of_decide_eq_false h0
    have hacq : (acquire rate calls now).2
        = (calls.dropWhile fun x => decide (x < now - 60)).headD 0 + 601/10 := by
      simp only [acquire]
      rw [if_pos hcap]
    rw [hacq, hcons, List.headD_cons]
    linarith
  · have hacq : (acquire rate calls now).2 = now := by
      simp only [acquire]
      rw [if_neg hcap]
    rw [hacq]

/-- Every completion of a run is at least the starting reference time. -/
theorem runAcquires_ge (rate : ℕ) (hrate : 1 ≤ rate) :
    ∀ (delays : List ℚ) (calls : List ℚ) (tprev : ℚ),
    (∀ d ∈ delays, 0 ≤ d) →
    ∀ x ∈ runAcquires rate calls tprev delays, tprev ≤ x := by
  intro delays
  induction delays with
  | nil => intro calls tprev _ x hx; simp [runAcquires] at hx
  | cons δ rest ih =>
    intro calls tprev hδ x hx
    rw [runAcquires] at hx
    have hδ0 : 0 ≤ δ := hδ δ (List.mem_cons_self _ _)
    have hc : tprev ≤ (acquire rate calls (tprev + δ)).2 :=
      le_trans (by linarith) (acquire_snd_ge rate hrate calls (tprev + δ))
    rcases List.mem_cons.mp hx with h | h
    · rw [h]; exact hc
    · exact le_trans hc
        (ih _ _ (fun d hd => hδ d (List.mem_cons_of_mem _ hd)) x h)

/-- The new deque after a rate-limited `acquire`: the stale head leaves the
60-second horizon of the completion time, keeping every invariant. -/
theorem newDequeLimited (rate : ℕ) (as : List ℚ) (a now : ℚ)
    (hsorts : (a :: as).Pairwise (· ≤ ·))
    (hles : ∀ x ∈ a :: as, x ≤ now)
    (hslen : (a :: as).length ≤ rate)
    (hhead : now - 60 ≤ a) :
    (((a :: as) ++ [a + 601/10]).Pairwise (· ≤ ·)) ∧
    (∀ x ∈ (a :: as) ++ [a + 601/10], x ≤ a + 601/10) ∧
    ((((a :: as) ++ [a + 601/10]).dropWhile
        fun x => decide (x < (a + 601/10) - 60)).length ≤ rate) ∧
    (∀ u : ℚ, ((((a :: as) ++ [a + 601/10]).filter (window u)).length ≤ rate)) := by
  have hxc : ∀ x ∈ a :: as, x ≤ a + 601/10 := by
    intro x hx
    have := hles x hx
    linarith
  refine ⟨?_, ?_, ?_, ?_⟩
  · rw [List.pairwise_append]
    refine ⟨hsorts, List.pairwise_singleton _ _, ?_⟩
    intro x hx y hy
    rw [List.mem_singleton] at hy
    subst hy
    exact hxc x hx
  · intro x hx
    rcases List.mem_append.mp hx with h | h
    · exact hxc x h
    · rw [List.mem_singleton] at h; subst h; exact le_refl _
  · have hstale : decide (a < (a + 601/10) - 60) = true := decide_eq_true (by linarith)
    rw [List.cons_append, List.dropWhile_cons, if_pos hstale]
    refine le_trans (List.Sublist.length_le (List.dropWhile_sublist _)) ?_
    simp only [List.length_append, List.length_singleton]
    simp only [List.length_cons] at hslen
    omega
  · intro u
    by_cases hcw : window u (a + 601/10) = true
    · have haw : window u a = false := by
        apply decide_eq_false
        intro hcon
        obtain ⟨hcw1, hcw2⟩ := of_decide_eq_true hcw
        have h2 : u - 60 ≤ a := hcon.1
        linarith
      rw [List.cons_append, List.filter_cons, if_neg (by simp [haw])]
      refine le_trans (List.length_filter_le _ _) ?_
      simp only [List.length_append, List.length_singleton]
      simp only [List.length_cons] at hslen
      omega
    · rw [List.filter_append]
      have hfc : ([a + 601/10].filter (window u)) = [] := by
        simp only [List.filter_cons, List.filter_nil]
        rw [if_neg (by simp [hcw])]
      rw [hfc]
      simp only [List.append_nil]
      exact le_trans (List.length_filter_le _ _) hslen

/-- The new deque after an uncontended `acquire`: still at most `rate`
entries in total. -/
theorem newDequeFree (rate : ℕ) (s : List ℚ) (now : ℚ)
    (hsorts : s.Pairwise (· ≤ ·)) (hles : ∀ x ∈ s, x ≤ now)
    (hslen : s.length < rate) :
    ((s ++ [now]).Pairwise (· ≤ ·)) ∧
    (∀ x ∈ s ++ [now], x ≤ now) ∧
    (((s ++ [now]).dropWhile fun x => decide (x < now - 60)).length ≤ rate) ∧
    (∀ u : ℚ, (((s ++ [now]).filter (window u)).length ≤ rate)) := by
  refine ⟨?_, ?_, ?_, ?_⟩
  · rw [List.pairwise_append]
    refine ⟨hsorts, List.pairwise_singleton _ _, ?_⟩
    intro x hx y hy
    rw [List.mem_singleton] at hy
    subst hy
    exact hles x hx
  · intro x hx
    rcases List.mem_append.mp hx with h | h
    · exact hles x h
    · rw [List.mem_singleton] at h; subst h; exact le_refl _
  · refine le_trans (List.Sublist.length_le (List.dropWhile_sublist _)) ?_
    simp only [List.length_append, List.length_singleton]
    omega
  · intro u
    refine le_trans (List.length_filter_le _ _) ?_
    simp only [List.length_append, List.length_singleton]
    omega

/-- One `acquire` step preserves the limiter's invariants. -/
theorem acquire_invariant (rate : ℕ) (hrate : 1 ≤ rate) (calls : List ℚ)
    (tprev δ : ℚ) (hδ : 0 ≤ δ)
    (hsort : calls.Pairwise (· ≤ ·))
    (hle : ∀ x ∈ calls, x ≤ tprev)
    (hlen : (calls.dropWhile fun x => decide (x < tprev - 60)).length ≤ rate) :
    (acquire rate calls (tprev + δ)).1.Pairwise (· ≤ ·) ∧
    (∀ x ∈ (acquire rate calls (tprev + δ)).1, x ≤ (acquire rate calls (tprev + δ)).2) ∧
    (((acquire rate calls (tprev + δ)).1.dropWhile
        fun x => decide (x < (acquire rate calls (tprev + δ)).2 - 60)).length ≤ rate) ∧
    (∀ u : ℚ, (((acquire rate calls (tprev + δ)).1.filter (window u)).length ≤ rate)) := by
  have hsub : List.Sublist (calls.dropWhile fun x => decide (x < tprev + δ - 60)) calls :=
    List.dropWhile_sublist _
  have hsorts : (calls.dropWhile fun x => decide (x < tprev + δ - 60)).Pairwise (· ≤ ·) :=
    hsort.sublist hsub
  have hles : ∀ x ∈ (calls.dropWhile fun x => decide (x < tprev + δ - 60)), x ≤ tprev + δ :=
    fun x hx => le_trans (hle x (hsub.subset hx)) (by linarith)
  have hslen : (calls.dropWhile fun x => decide (x < tprev + δ - 60)).length ≤ rate := by
    refine le_trans (dropWhile_length_mono (fun x => decide (x < tprev - 60))
      (fun x => decide (x < tprev + δ - 60)) ?_ calls) hlen
    intro x hx
    have := of_decide_eq_true hx
    exact decide_eq_true (by linarith)
  by_cases hcap : rate ≤ (calls.dropWhile fun x => decide (x < tprev + δ - 60)).length
  · have hne : (calls.dropWhile fun x => decide (x < tprev + δ - 60)) ≠ [] := by
      intro h
      rw [h] at hcap
      simp at hcap
      omega
    obtain ⟨a, as, hcons⟩ := List.exists_cons_of_ne_nil hne
    have h0 := List.head?_dropWhile_not (fun x => decide (x < tprev + δ - 60)) calls
    rw [hcons] at h0
    simp only [List.head?_cons] at h0
    have hhead : tprev + δ - 60 ≤ a := by
      have := of_decide_eq_false h0
      linarith
    have hacq : acquire rate calls (tprev + δ)
        = ((a :: as) ++ [a + 601/10], a + 601/10) := by
      simp only [acquire]
      rw [if_pos hcap, hcons, List.headD_cons]
    rw [hacq]
    obtain ⟨k1, k2, k3, k4⟩ := newDequeLimited rate as a (tprev + δ)
      (hcons ▸ hsorts) (hcons ▸ hles) (le_trans (by rw [hcons]) hslen) hhead
    exact ⟨k1, k2, k3, k4⟩
  · have hacq : acquire rate calls (tprev + δ)
        = ((calls.dropWhile fun x => decide (x < tprev + δ - 60)) ++ [tprev + δ], tprev + δ) := by
      simp only [acquire]
      rw [if_neg hcap]
    rw [hacq]
    obtain ⟨k1, k2, k3, k4⟩ := newDequeFree rate
      (calls.dropWhile fun x => decide (x < tprev + δ - 60)) (tprev + δ)
      hsorts hles (by omega)
    exact ⟨k1, k2, k3, k4⟩

/-- The run-level invariant: starting from a deque satisfying the limiter's
invariants, the old deque entries together with all completions of the run
never put more than `rate` timestamps in any closed 60-second window. -/
theorem runAcquires_window_invariant (rate : ℕ) (hrate : 1 ≤ rate) :
    ∀ (delays : List ℚ) (calls : List ℚ) (tprev : ℚ),
    (∀ d ∈ delays, 0 ≤ d) →
    calls.Pairwise (· ≤ ·) →
    (∀ x ∈ calls, x ≤ tprev) →
    ((calls.dropWhile fun x => decide (x < tprev - 60)).length ≤ rate) →
    (∀ u : ℚ, ((calls.filter (window u)).length ≤ rate)) →
    ∀ t : ℚ, (((calls ++ runAcquires rate calls tprev delays).filter (window t)).length ≤ rate) := by
  intro delays
  induction delays with
  | nil =>
    intro calls tprev _ _ _ _ hwin t
    simpa [runAcquires] using hwin t
  | cons δ rest ih =>
    intro calls tprev hδ hsort hle hlen hwin t
    have hδ0 : 0 ≤ δ := hδ δ (List.mem_cons_self _ _)
    obtain ⟨hsort2, hle2, hlen2⟩ :=
      acquire_invariant rate hrate calls tprev δ hδ0 hsort hle hlen
    have hwin2 : ∀ u : ℚ,
        (((acquire rate calls (tprev + δ)).1.filter (window u)).length ≤ rate) :=
      hlen2.2
    have hnow : tprev + δ ≤ (acquire rate calls (tprev + δ)).2 :=
      acquire_snd_ge rate hrate calls (tprev + δ)
    have hih := ih (acquire rate calls (tprev + δ)).1 (acquire rate calls (tprev + δ)).2
      (fun d hd => hδ d (List.mem_cons_of_mem _ hd)) hsort2 hle2 hlen2.1 hwin2 t
    rw [runAcquires]
    by_cases hE : ∃ e ∈ (calls.takeWhile fun x => decide (x < tprev + δ - 60)),
        window t e = true
    · -- an evicted (stale) timestamp sits in the window, so the window ends
      -- before `now` and contains no completion of this or any later call
      obtain ⟨e, heE, hew⟩ := hE
      have hepred : e < tprev + δ - 60 := by
        have h := List.mem_takeWhile_imp heE
        simp only [decide_eq_true_eq] at h
        exact h
      have het : t < tprev + δ := by
        have h2 := of_decide_eq_true hew
        have := h2.1
        linarith
      have hcompf : ((acquire rate calls (tprev + δ)).2 ::
          runAcquires rate (acquire rate calls (tprev + δ)).1
            (acquire rate calls (tprev + δ)).2 rest).filter (window t) = [] := by
        rw [List.filter_eq_nil_iff]
        intro x hx
        have hxge : tprev + δ ≤ x := by
          rcases List.mem_cons.mp hx with h | h
          · rw [h]; exact hnow
          · exact le_trans hnow (runAcquires_ge rate hrate rest _ _
              (fun d hd => hδ d (List.mem_cons_of_mem _ hd)) x h)
        intro hcon
        have h2 := of_decide_eq_true hcon
        have := h2.2
        linarith
      rw [List.filter_append, hcompf]
      simp only [List.append_nil]
      exact hwin t
    · -- no stale timestamp in the window: the old deque plus the new
      -- completions carry the whole count, bounded by the step invariant
      push_neg at hE
      have hEnil : ((calls.takeWhile fun x => decide (x < tprev + δ - 60)).filter
          (window t)) = [] := by
        rw [List.filter_eq_nil_iff]
        intro e he hcon
        exact hE e he hcon
      have hsplit : calls
          = (calls.takeWhile fun x => decide (x < tprev + δ - 60))
            ++ (calls.dropWhile fun x => decide (x < tprev + δ - 60)) :=
        (List.takeWhile_append_dropWhile ..).symm
      have hfst := acquire_fst rate calls (tprev + δ)
      have e2 : (calls.filter (window t)).length
          = ((calls.dropWhile fun x => decide (x < tprev + δ - 60)).filter (window t)).length := by
        conv_lhs => rw [hsplit]
        rw [List.filter_append, hEnil]
        simp
      have e3 : ((acquire rate calls (tprev + δ)).1
            ++ runAcquires rate (acquire rate calls (tprev + δ)).1
              (acquire rate calls (tprev + δ)).2 rest)
          = ((calls.dropWhile fun x => decide (x < tprev + δ - 60))
            ++ ((acquire rate calls (tprev + δ)).2 ::
              runAcquires rate (acquire rate calls (tprev + δ)).1
                (acquire rate calls (tprev + δ)).2 rest)) := by
        rw [hfst, List.append_assoc]
        rfl
      rw [e3, List.filter_append, List.length_append] at hih
      rw [List.filter_append, List.length_append, e2]
      exact hih

/-- C6 (confirmed): for every sequence of sequential `acquire()` calls on a
`RateLimiter` configured with `rate ≥ 1` calls per minute, and for every
closed trailing 60-second window of simulated time, the number of
`acquire()` completions inside the window never exceeds `rate`. -/
theorem c6_rate_limiter_window_bound (rate : ℕ) (hrate : 1 ≤ rate)
    (start : ℚ) (delays : List ℚ) (hδ : ∀ d ∈ delays, 0 ≤ d) (t : ℚ) :
    ((runAcquires rate [] start delays).filter (window t)).length ≤ rate := by
  have h := runAcquires_window_invariant rate hrate delays [] start hδ
    (List.Pairwise.nil) (by intro x hx; simp at hx) (by simp) (by intro u; simp) t
  simpa using h

/-- C6 witness: two back-to-back calls at limit 1 keep every window at one
completion. -/
theorem c6_witness :
    ((runAcquires 1 [] 0 [0, 0]).filter (window 60)).length ≤ 1 :=
  c6_rate_limiter_window_bound 1 (le_refl 1) 0 [0, 0]
    (by intro d hd; rcases List.mem_cons.mp hd with h | h <;> simp_all) 60

end Driftville
